import Mathlib

/-!
Verification of the biomarker-analysis worker service (diagnostics-platform).

This file gives a shallow embedding of the worker's core components and proves
the specification's claims about them:

* `worker/app/extractors/core_v1.py` — pure feature kernels
  (`compute_timeseries_features`, `compute_endpoint_features`,
  `compute_global_features`);
* `worker/app/extractors/timeseries_csv.py` and `endpoint_json.py` — the two
  schema extractors;
* `worker/app/inference.py` — feature-vector alignment and single/batch
  inference;
* `worker/app/db.py` — the persistence gateway, modelled as pure operations
  over an explicit database state;
* `worker/app/consumer.py` — the extraction job runner.

Modelling conventions:

* Python floats are modelled as real numbers (exact arithmetic); machine
  rounding is out of scope.  `np.nan` used as the missing-value sentinel is
  modelled as `Option.none`.
* Python dicts (feature maps, JSON objects) are modelled as ordered
  association lists with Python's insertion-order/overwrite semantics
  (`dictInsert`).
* JSON values decoded by `json.loads` are modelled by the inductive `JValue`.
* External collaborators (blob store, queue broker, relational store,
  `json.loads`, the XGBoost booster) appear as explicit parameters/oracles,
  matching the spec's "out of scope" list; everything on the worker side is
  translated from the source.
-/

namespace Worker

/-! ### Generic list/arith helpers -/

/-- Python string slice `s[:n]`, by code point (as Python slices strings). -/
def pyTake (s : String) (n : ℕ) : String := ⟨s.data.take n⟩

/-- Value of `np.mean` on a vector, in exact arithmetic. -/
noncomputable def meanL (xs : List ℝ) : ℝ := xs.sum / xs.length

/-! ### JSON values and Python-dict semantics

Feature maps are Python dicts `str -> (float | None | str | decoded JSON)`.
We model every value that can sit in such a dict with `JValue`
(`json.loads` output and kernel outputs alike), and the dict itself as an
ordered association list with Python's semantics: assignment to an existing
key overwrites in place, assignment to a new key appends. -/

inductive JValue where
  | null : JValue
  | bool (b : Bool) : JValue
  | num (x : ℝ) : JValue
  | str (s : String) : JValue
  | arr (items : List JValue) : JValue
  | obj (fields : List (String × JValue)) : JValue

abbrev FeatureMap := List (String × JValue)

/-- Python `d[k] = v`: overwrite when the key exists, else append. -/
def dictInsert (m : FeatureMap) (k : String) (v : JValue) : FeatureMap :=
  if m.any (fun p => p.1 == k) then
    m.map (fun p => if p.1 == k then (k, v) else p)
  else m ++ [(k, v)]

/-- Python `d.update(adds)`: insert each pair of `adds` in order. -/
def dictUpdate (m : FeatureMap) (adds : FeatureMap) : FeatureMap :=
  adds.foldl (fun acc p => dictInsert acc p.1 p.2) m

/-- Python `d.get(k)`: `none` when the key is absent. -/
def dictGet? (m : FeatureMap) (k : String) : Option JValue :=
  (m.find? (fun p => p.1 == k)).map (·.2)

/-- Keys of a feature map, in order. -/
def keysOf (m : FeatureMap) : List String := m.map (·.1)

/-! ### Numeric-literal parsing

Models Python `float(str)` / `pd.to_numeric` on finite decimal literals:
optional sign, digits with an optional decimal point, optional exponent.
Special values (`inf`, `nan`, underscores, surrounding whitespace) are not
modelled; `nan` would anyway be dropped by the extractor's `dropna`. -/

def digitVal (c : Char) : ℕ := c.toNat - 48

def natOfDigits (cs : List Char) : ℕ := cs.foldl (fun a c => 10 * a + digitVal c) 0

def parseExp? (cs : List Char) : Option ℤ :=
  match cs with
  | '+' :: rest =>
      if rest ≠ [] ∧ rest.all Char.isDigit then some (natOfDigits rest) else none
  | '-' :: rest =>
      if rest ≠ [] ∧ rest.all Char.isDigit then some (-(natOfDigits rest : ℤ)) else none
  | _ => if cs ≠ [] ∧ cs.all Char.isDigit then some (natOfDigits cs) else none

def parseUnsigned? (cs : List Char) : Option ℚ :=
  match cs.splitOn '.' with
  | [ip] => if ip ≠ [] ∧ ip.all Char.isDigit then some (natOfDigits ip) else none
  | [ip, fp] =>
      if (ip ++ fp) ≠ [] ∧ ip.all Char.isDigit ∧ fp.all Char.isDigit then
        some ((natOfDigits ip : ℚ) + (natOfDigits fp : ℚ) / (10 : ℚ) ^ fp.length)
      else none
  | _ => none

def parseRat? (s : String) : Option ℚ :=
  let cs := s.data
  let signAndRest : ℚ × List Char :=
    match cs with
    | '+' :: r => (1, r)
    | '-' :: r => (-1, r)
    | _ => (1, cs)
  match (signAndRest.2.map (fun c => if c = 'E' then 'e' else c)).splitOn 'e' with
  | [m] => (parseUnsigned? m).map (fun q => signAndRest.1 * q)
  | [m, ex] =>
      match parseUnsigned? m, parseExp? ex with
      | some q, some e => some (signAndRest.1 * q * (10 : ℚ) ^ e)
      | _, _ => none
  | _ => none

/-! ### Core v1 feature kernels (`extractors/core_v1.py`)

All kernels are pure; numbers are exact reals.  The source sorts with
`np.argsort(t)` (library default); we model the sort as a *stable* ascending
sort on `t` (insertion sort), which is the ordering the module's own
docstring and the spec require — the library default's tie order is in fact
not stable, which is the subject of claim C4. -/

/-- Feature key `channel.<CHANNEL>.<NAME>` (Python f-string `f"{prefix}.{name}"`). -/
def chKey (channel name : String) : String := "channel." ++ channel ++ "." ++ name

/-- Sorted pair `(t, y)` ascending by `t` (stable in ties); models
`sorted_indices = np.argsort(t); t = t[sorted_indices]; y = y[sorted_indices]`. -/
noncomputable def sortedPairs (t y : List ℝ) : List (ℝ × ℝ) :=
  (t.zip y).insertionSort (fun a b => a.1 ≤ b.1)

/-- Population standard deviation `np.std(xs, ddof=0)`. -/
noncomputable def popStd (xs : List ℝ) : ℝ :=
  Real.sqrt (meanL (xs.map (fun v => (v - meanL xs) ^ 2)))

/-- Maximum of a vector (`np.max`); 0 on the empty list (unreached: callers
guard non-emptiness). -/
noncomputable def maxD : List ℝ → ℝ
  | [] => 0
  | x :: xs => xs.foldl max x

/-- Minimum of a vector (`np.min`); 0 on the empty list (unreached). -/
noncomputable def minD : List ℝ → ℝ
  | [] => 0
  | x :: xs => xs.foldl min x

/-- First `t[i]` (paired scan of `t`, `y`) with `y[i] ≥ h`; `none` if no such
index.  Models the `for i, yi in enumerate(y): if yi >= h: ... break` scan,
and also `t[int(np.argmax(y))]` when `h` is the maximum of `y` (the first
index attaining the max is the first index with `y[i] ≥ max y`). -/
noncomputable def scanFirstGe : List ℝ → List ℝ → ℝ → Option ℝ
  | tt :: ts, yy :: ys, h => if yy ≥ h then some tt else scanFirstGe ts ys h
  | _, _, _ => none

/-- Trapezoidal integral `scipy.integrate.trapezoid(y, t)` over the sorted
pairs; 0 for fewer than two points. -/
noncomputable def trapezoid : List (ℝ × ℝ) → ℝ
  | (t1, y1) :: (t2, y2) :: rest => (t2 - t1) * (y1 + y2) / 2 + trapezoid ((t2, y2) :: rest)
  | _ => 0

/-- Slope coefficient of `np.polyfit(t, y, 1)` in exact arithmetic: the
ordinary-least-squares slope when the design is full rank; in the
rank-deficient case (all `t` equal) the library returns a least-squares
pseudo-solution, every one of which predicts the mean of `y`; we take the
minimum-norm representative. -/
noncomputable def polyfitSlope (pts : List (ℝ × ℝ)) : ℝ :=
  let tbar := meanL (pts.map (·.1))
  let ybar := meanL (pts.map (·.2))
  let sxx := (pts.map (fun p => (p.1 - tbar) ^ 2)).sum
  let sxy := (pts.map (fun p => (p.1 - tbar) * (p.2 - ybar))).sum
  if sxx = 0 then tbar * ybar / (tbar ^ 2 + 1) else sxy / sxx

/-- Sum of squared residuals of the affine fit `y = a·t + b` over `pts`. -/
noncomputable def fitCost (pts : List (ℝ × ℝ)) (a b : ℝ) : ℝ :=
  (pts.map (fun p => (p.2 - (a * p.1 + b)) ^ 2)).sum

/-- Null features for a channel with no data (`_empty_channel_features`). -/
def empty_channel_features (channel : String) : FeatureMap :=
  [(chKey channel "baseline_mean", JValue.null),
   (chKey channel "baseline_std", JValue.null),
   (chKey channel "y_max", JValue.null),
   (chKey channel "y_min", JValue.null),
   (chKey channel "t_at_max", JValue.null),
   (chKey channel "auc", JValue.null),
   (chKey channel "slope_early", JValue.null),
   (chKey channel "t_halfmax", JValue.null),
   (chKey channel "snr", JValue.null)]

/-- Per-channel time-series kernel (`compute_timeseries_features`).
`int(n * 0.1)` and `int(n * 0.2)` are floor divisions for every relevant `n`
(the binary constants 0.1, 0.2 exceed 1/10, 1/5 by less than the gap to the
next integer multiple), so they are modelled as `n / 10`, `n / 5` on `ℕ`. -/
noncomputable def compute_timeseries_features (t y : List ℝ) (channel : String) : FeatureMap :=
  if t.length = 0 ∨ y.length = 0 then empty_channel_features channel
  else
    let pairs := sortedPairs t y
    let ts := pairs.map (·.1)
    let ys := pairs.map (·.2)
    let n := ys.length
    let baseline_n := max 1 (n / 10)
    let baseline_y := ys.take baseline_n
    let baseline_mean := meanL baseline_y
    let baseline_std := popStd baseline_y
    let y_max := maxD ys
    let y_min := minD ys
    let t_at_max := (scanFirstGe ts ys y_max).getD 0
    let auc := trapezoid pairs
    let early_n := max 2 (n / 5)
    let early := pairs.take early_n
    let slope_early := if 2 ≤ early.length then polyfitSlope early else 0
    let halfmax_threshold := baseline_mean + 0.5 * (y_max - baseline_mean)
    let t_halfmax := scanFirstGe ts ys halfmax_threshold
    let snr := (y_max - baseline_mean) / max baseline_std (1 / 1000000000)
    [(chKey channel "baseline_mean", JValue.num baseline_mean),
     (chKey channel "baseline_std", JValue.num baseline_std),
     (chKey channel "y_max", JValue.num y_max),
     (chKey channel "y_min", JValue.num y_min),
     (chKey channel "t_at_max", JValue.num t_at_max),
     (chKey channel "auc", JValue.num auc),
     (chKey channel "slope_early", JValue.num slope_early),
     (chKey channel "t_halfmax",
       match t_halfmax with
       | some v => JValue.num v
       | none => JValue.null),
     (chKey channel "snr", JValue.num snr)]

/-- Per-channel endpoint kernel (`compute_endpoint_features`). -/
def compute_endpoint_features (channel : String) (value : ℝ) : FeatureMap :=
  [(chKey channel "endpoint_value", JValue.num value)]

/-- The loop body of `compute_global_features`: scanning the channel list,
flag low quality as soon as a channel has a non-null `baseline_std` above
`th1` or a non-null `snr` below `th2` (the `break` does not change the
resulting truth value). -/
def lowQualityLoop (fm : FeatureMap) (th1 th2 : ℝ) : List String → Prop
  | [] => False
  | ch :: rest =>
      (∃ r, dictGet? fm (chKey ch "baseline_std") = some (JValue.num r) ∧ r > th1) ∨
      (∃ r, dictGet? fm (chKey ch "snr") = some (JValue.num r) ∧ r < th2) ∨
      lowQualityLoop fm th1 th2 rest

open Classical in
/-- Global kernel (`compute_global_features`).  The Python defaults
`baseline_std_threshold = 10.0`, `snr_threshold = 3.0` are passed explicitly
by the call sites here. -/
noncomputable def compute_global_features (channel_features : FeatureMap)
    (channels : List String) (baseline_std_threshold snr_threshold : ℝ) : FeatureMap :=
  [("global.num_channels", JValue.num channels.length),
   ("global.signal_quality_flag",
     if lowQualityLoop channel_features baseline_std_threshold snr_threshold channels
     then JValue.str "low" else JValue.str "ok")]

/-! ### Extraction results (`extractors/base.py`) -/

structure ExtractionResult where
  success : Bool
  features : FeatureMap
  num_features : ℕ
  error : Option String

/-- Failure result (`ExtractionResult.failure`). -/
def ExtractionResult.failure (error : String) : ExtractionResult :=
  ⟨false, [], 0, some error⟩

/-- Count contributed by one feature value in `from_features`: a nested dict
counts its length, anything else counts 1. -/
def featureValueCount : JValue → ℕ
  | .obj fields => fields.length
  | _ => 1

/-- Success result (`ExtractionResult.from_features`). -/
def ExtractionResult.from_features (features : FeatureMap) : ExtractionResult :=
  ⟨true, features, (features.map (fun p => featureValueCount p.2)).sum, none⟩

/-! ### Time-series CSV extractor (`extractors/timeseries_csv.py`)

`pd.read_csv` is modelled at the level the extractor relies on: lines split
on newlines (blank lines skipped), cells split on commas, a header row naming
the columns, an empty cell standing for a missing value (pandas `NaN`).
Ragged rows, quoting and other `read_csv` niceties are out of scope. -/

/-- Non-blank lines of the CSV text. -/
def csvLines (content : String) : List String :=
  (content.splitOn "\n").filter (fun l => l ≠ "")

/-- Header cells and data-row cells; `none` models pandas `EmptyDataError`
on content with no columns at all. -/
def parseCSV? (content : String) : Option (List String × List (List String)) :=
  match csvLines content with
  | [] => none
  | header :: rows => some (header.splitOn ",", rows.map (fun r => r.splitOn ","))

/-- Cell of a row at a column index; missing cells read as empty (pandas
fills short rows with `NaN`). -/
def cellAt (row : List String) (i : ℕ) : String := (row.get? i).getD ""

/-- True when the cell coerces under `pd.to_numeric` (an empty cell is `NaN`,
which is numeric). -/
def cellNumOk (s : String) : Bool := s == "" || (parseRat? s).isSome

/-- Python `", ".join`. -/
def joinComma : List String → String
  | [] => ""
  | [x] => x
  | x :: xs => x ++ ", " ++ joinComma xs

def REQUIRED_COLUMNS : List String := ["channel", "t", "y"]

/-- Validation of the CSV content (`TimeseriesCSVExtractor.validate`).
The `is_numeric_dtype` / `to_numeric` pair on `t`, `y` amounts to: every cell
is empty or a numeric literal.  The dtype check on `channel` rejects the
column when every cell is numeric-or-empty (pandas then infers a numeric
dtype, not a string one).  The missing-columns message lists the set
difference; Python's set iteration order is arbitrary, modelled here in the
declared column order. -/
def tsValidate (content : String) : Bool × Option String :=
  match parseCSV? content with
  | none => (false, some "Validation error: No columns to parse from file")
  | some (header, rows) =>
    let missing := REQUIRED_COLUMNS.filter (fun c => !header.contains c)
    if missing ≠ [] then
      (false, some ("Missing required columns: " ++ joinComma missing))
    else if rows = [] then
      (false, some "CSV file is empty (no data rows)")
    else
      let ci := (header.findIdx? (· == "channel")).getD 0
      let ti := (header.findIdx? (· == "t")).getD 0
      let yi := (header.findIdx? (· == "y")).getD 0
      if rows.all (fun r => cellNumOk (cellAt r ci)) then
        (false, some "Column 'channel' must be string type")
      else if !rows.all (fun r => cellNumOk (cellAt r ti)) then
        (false, some "Column 't' must be numeric (float)")
      else if !rows.all (fun r => cellNumOk (cellAt r yi)) then
        (false, some "Column 'y' must be numeric (float)")
      else (true, none)

structure TSRow where
  channel : String
  t : ℚ
  y : ℚ

/-- Channel cell after `df["channel"].astype(str)`: an empty cell is pandas
`NaN`, which `astype(str)` renders as the string "nan". -/
def tsChannelLabel (s : String) : String := if s = "" then "nan" else s

/-- Rows surviving `pd.to_numeric(..., errors="coerce")` plus
`dropna(subset=["t", "y"])`. -/
def tsGoodRows (content : String) : List TSRow :=
  match parseCSV? content with
  | none => []
  | some (header, rows) =>
    let ci := (header.findIdx? (· == "channel")).getD 0
    let ti := (header.findIdx? (· == "t")).getD 0
    let yi := (header.findIdx? (· == "y")).getD 0
    rows.filterMap (fun r =>
      match parseRat? (cellAt r ti), parseRat? (cellAt r yi) with
      | some tv, some yv => some ⟨tsChannelLabel (cellAt r ci), tv, yv⟩
      | _, _ => none)

/-- First-occurrence deduplication (`pd.Series.unique`). -/
def uniqueFirst : List String → List String
  | [] => []
  | x :: xs => x :: uniqueFirst (xs.filter (fun y => y ≠ x))
termination_by l => l.length
decreasing_by
  simp_wf
  exact Nat.lt_succ_of_le (List.length_filter_le _ _)

/-- Channel labels of the payload: `sorted(df["channel"].unique().tolist())`. -/
def tsChannels (content : String) : List String :=
  (uniqueFirst ((tsGoodRows content).map (·.channel))).insertionSort (fun a b => a ≤ b)

/-- Per-channel features of the CSV extraction loop body: the rows of one
channel are fed to the time-series kernel.  The per-channel
`sort_values("t")` before the kernel is modelled as the identity: the kernel
sorts by `t` itself (see C4 for the tie-order caveat both sorts share in the
source). -/
noncomputable def tsChannelFeatures (good : List TSRow) (ch : String) : FeatureMap :=
  let chRows := good.filter (fun r => r.channel == ch)
  compute_timeseries_features
    (chRows.map (fun r => (r.t : ℝ))) (chRows.map (fun r => (r.y : ℝ))) ch

/-- Feature extraction from the CSV (`TimeseriesCSVExtractor.extract`). -/
noncomputable def TimeseriesCSVExtractor.extract (content : String) : ExtractionResult :=
  match tsValidate content with
  | (false, err) => ExtractionResult.failure (err.getD "Validation failed")
  | (true, _) =>
    let good := tsGoodRows content
    if good.length = 0 then ExtractionResult.failure "No valid data after parsing"
    else
      let channels := tsChannels content
      let all_features := channels.foldl
        (fun acc ch => dictUpdate acc (tsChannelFeatures good ch)) []
      let global_features := compute_global_features all_features channels 10 3
      ExtractionResult.from_features (dictUpdate all_features global_features)

/-! ### Endpoint JSON extractor (`extractors/endpoint_json.py`)

The extractor is embedded over the decoded JSON value (`json.loads` output);
decoding itself is an external stdlib collaborator. -/

/-- Entry checks of `EndpointJSONExtractor.validate`, with positional error
messages.  `isinstance(v, (int, float))` also accepts Python booleans
(`bool` is an `int` subclass). -/
def epCheckEntries : List JValue → ℕ → Bool × Option String
  | [], _ => (true, none)
  | e :: rest, i =>
    match e with
    | JValue.obj f =>
      match dictGet? f "channel" with
      | none => (false, some ("Channel entry " ++ toString i ++ " missing 'channel' field"))
      | some cv =>
        match dictGet? f "value" with
        | none => (false, some ("Channel entry " ++ toString i ++ " missing 'value' field"))
        | some vv =>
          match cv with
          | JValue.str _ =>
            match vv with
            | JValue.num _ => epCheckEntries rest (i + 1)
            | JValue.bool _ => epCheckEntries rest (i + 1)
            | _ => (false, some ("Channel entry " ++ toString i ++ " 'value' must be a number"))
          | _ => (false, some ("Channel entry " ++ toString i ++ " 'channel' must be a string"))
    | _ => (false, some ("Channel entry " ++ toString i ++ " must be an object"))

/-- Validation of the decoded payload (`EndpointJSONExtractor.validate`). -/
def epValidate (data : JValue) : Bool × Option String :=
  match data with
  | JValue.obj fields =>
    match dictGet? fields "channels" with
    | none => (false, some "Missing required field 'channels'")
    | some (JValue.arr []) => (false, some "Field 'channels' must have at least one entry")
    | some (JValue.arr items) => epCheckEntries items 0
    | some _ => (false, some "Field 'channels' must be an array")
  | _ => (false, some "JSON root must be an object")

/-- Label of a channel entry (`ch["channel"]`; the defaults are unreachable
after validation). -/
def epLabel (e : JValue) : String :=
  match e with
  | JValue.obj f =>
    match dictGet? f "channel" with
    | some (JValue.str s) => s
    | _ => ""
  | _ => ""

/-- Numeric value of a channel entry (`float(ch["value"])`; a boolean reads
as 0/1, the default is unreachable after validation). -/
noncomputable def epValue (e : JValue) : ℝ :=
  match e with
  | JValue.obj f =>
    match dictGet? f "value" with
    | some (JValue.num x) => x
    | some (JValue.bool b) => if b then 1 else 0
    | _ => 0
  | _ => 0

/-- Loop body of the endpoint extraction: accumulate one channel entry's
features and record its name. -/
noncomputable def epFoldStep (acc : FeatureMap × List String) (ch : JValue) :
    FeatureMap × List String :=
  (dictUpdate acc.1 (compute_endpoint_features (epLabel ch) (epValue ch)),
   acc.2 ++ [epLabel ch])

/-- Feature extraction from the decoded JSON (`EndpointJSONExtractor.extract`). -/
noncomputable def EndpointJSONExtractor.extract (data : JValue) : ExtractionResult :=
  match epValidate data with
  | (false, err) => ExtractionResult.failure (err.getD "Validation failed")
  | (true, _) =>
    match data with
    | JValue.obj fields =>
      match dictGet? fields "channels" with
      | some (JValue.arr items) =>
        let channels_data := items.insertionSort (fun a b => epLabel a ≤ epLabel b)
        let step := channels_data.foldl epFoldStep ([], [])
        let global_features := compute_global_features step.1 step.2 10 3
        let with_global := dictUpdate step.1 global_features
        let final :=
          match dictGet? fields "metadata" with
          | some (JValue.obj mf) =>
              mf.foldl (fun acc p => dictInsert acc ("metadata." ++ p.1) p.2) with_global
          | _ => with_global
        ExtractionResult.from_features final
      | _ => ExtractionResult.failure "Validation failed"
    | _ => ExtractionResult.failure "Validation failed"

/-! ### Feature-key shape

The regular expression of the claim,
`^(channel\.[^.]+\.[a-z_]+|global\.[a-z_]+|metadata\..+)$`,
encoded structurally over the key's characters.  In a regex, `[^.]` is any
character other than a dot (newlines included) and `.` in `metadata\..+` is
any character except a newline. -/

def lowerUnd (c : Char) : Bool := (decide ('a' ≤ c) && decide (c ≤ 'z')) || c == '_'

/-- Matcher for `[a-z_]+` against the whole remainder. -/
def nameTail (cs : List Char) : Bool := !cs.isEmpty && cs.all lowerUnd

/-- Matcher for `.+` (one or more non-newline characters). -/
def metaTail (cs : List Char) : Bool := !cs.isEmpty && cs.all (fun c => c != '\n')

/-- Scanner inside `[^.]+\.[a-z_]+` after at least one non-dot character:
consume further non-dots, then require a dot followed by `[a-z_]+`. -/
def chanAux : List Char → Bool
  | [] => false
  | c :: rest => if c = '.' then nameTail rest else chanAux rest

/-- Matcher for `[^.]+\.[a-z_]+` against the whole remainder. -/
def chanTail : List Char → Bool
  | [] => false
  | c :: rest => c != '.' && chanAux rest

/-- Literal-prefix matcher: `some rest` when the first argument is a prefix
of the second, with `rest` the remainder. -/
def stripPre : List Char → List Char → Option (List Char)
  | [], rest => some rest
  | p :: ps, c :: rest => if c = p then stripPre ps rest else none
  | _ :: _, [] => none

def keyShapeChars (cs : List Char) : Bool :=
  match stripPre ("channel.").data cs with
  | some rest => chanTail rest
  | none =>
    match stripPre ("global.").data cs with
    | some rest => nameTail rest
    | none =>
      match stripPre ("metadata.").data cs with
      | some rest => metaTail rest
      | none => false

/-- Whether a feature key matches the documented shape. -/
def keyShapeOK (s : String) : Bool := keyShapeChars s.data

/-! ### Inference engine (`inference.py`)

The XGBoost booster is an external collaborator: a loaded model carries its
probability and leaf-index predictors as (deterministic) functions of the
aligned feature vector.  `np.nan`, the missing-value sentinel, is modelled as
`Option.none` in the vector.  Scores are exact reals, so the NaN/Inf guard of
`run_inference` never fires in the model. -/

structure ModelConfig where
  feature_set : String
  feature_order : List String
  task : String
  default_threshold : ℝ
  notes : Option String

structure LoadedModel where
  config : ModelConfig
  num_trees : ℕ
  score : List (Option ℝ) → ℝ
  leaf : List (Option ℝ) → List ℤ

structure PredictionResult where
  sample_id : String
  model_id : String
  y_hat : ℝ
  threshold : ℝ
  predicted_class : ℤ
  leaf_indices : List ℤ
  num_trees : ℕ

/-- Python `float(value)` on a feature-map value: `None` and non-numeric
values become the missing sentinel; numeric strings coerce; booleans read as
0/1. -/
noncomputable def pyFloat? : JValue → Option ℝ
  | JValue.num x => some x
  | JValue.bool b => some (if b then 1 else 0)
  | JValue.str s => (parseRat? s).map (fun q => (q : ℝ))
  | _ => none

/-- Feature-vector alignment (`construct_feature_vector`): one slot per name
of `feature_order`; absent names, `None` and non-coercible values are the
missing sentinel. -/
noncomputable def construct_feature_vector (features : FeatureMap)
    (feature_order : List String) : List (Option ℝ) :=
  feature_order.map (fun name =>
    match dictGet? features name with
    | none => none
    | some v => pyFloat? v)

open Classical in
/-- Single-sample inference (`run_inference`). -/
noncomputable def run_inference (loaded_model : LoadedModel) (sample_id model_id : String)
    (features : FeatureMap) (threshold_override : Option ℝ) : PredictionResult :=
  let v := construct_feature_vector features loaded_model.config.feature_order
  let y_hat := loaded_model.score v
  let leaf_indices := loaded_model.leaf v
  let threshold := threshold_override.getD loaded_model.config.default_threshold
  let predicted_class : ℤ := if y_hat ≥ threshold then 1 else 0
  ⟨sample_id, model_id, y_hat, threshold, predicted_class, leaf_indices,
    loaded_model.num_trees⟩

open Classical in
/-- Batch inference (`run_batch_inference`): empty input short-circuits to an
empty output; otherwise one result per `(sample_id, features)` pair, in
order.  The one-call matrix predict of the library is row-independent and is
modelled row-wise. -/
noncomputable def run_batch_inference (loaded_model : LoadedModel) (model_id : String)
    (samples : List (String × FeatureMap)) (threshold_override : Option ℝ) :
    List PredictionResult :=
  match samples with
  | [] => []
  | _ =>
    let threshold := threshold_override.getD loaded_model.config.default_threshold
    samples.map (fun p =>
      let v := construct_feature_vector p.2 loaded_model.config.feature_order
      let y_hat := loaded_model.score v
      ⟨p.1, model_id, y_hat, threshold, if y_hat ≥ threshold then 1 else 0,
        loaded_model.leaf v, loaded_model.num_trees⟩)

/-! ### Persistence gateway (`db.py`)

The relational store is modelled as an explicit state of typed tables; each
operation translates its SQL predicate literally: `WHERE` clauses become
`find?` predicates, `UPDATE`/`INSERT` become functional updates.  Fresh ids
(`RETURNING id` of a generated UUID) and timestamps (`datetime.now`) are
passed as parameters. -/

structure ArtifactRow where
  id : String
  org_id : String
  experiment_id : String
  sample_id : Option String
  storage_key : String
  file_name : String
  file_type : String
  sha256 : String
  schema_version : String

structure JobRow where
  id : String
  org_id : String
  type : String
  status : String
  input : Option String
  output : Option String
  error : Option String

structure ModelRow where
  id : String
  org_id : String
  name : String
  version : String
  task : String
  feature_set_id : String
  storage_key : String
  model_format : String
  is_active : Bool

structure SampleRow where
  id : String
  org_id : String
  experiment_id : String
  sample_label : String

structure FeatureSetRow where
  id : String
  org_id : String
  name : String
  version : String
  feature_list : JValue

structure SampleFeaturesRow where
  id : String
  org_id : String
  sample_id : String
  feature_set_id : String
  artifact_id : String
  features : FeatureMap
  computed_at : String

structure PredictionRow where
  id : String
  org_id : String
  sample_id : String
  model_id : String
  y_hat : ℝ
  threshold : ℝ
  predicted_class : ℤ
  created_at : String

structure LeafEmbeddingRow where
  id : String
  org_id : String
  sample_id : String
  model_id : String
  leaf_indices : List ℤ
  created_at : String

structure DBState where
  raw_artifacts : List ArtifactRow
  jobs : List JobRow
  model_registry : List ModelRow
  samples : List SampleRow
  feature_sets : List FeatureSetRow
  sample_features : List SampleFeaturesRow
  predictions : List PredictionRow
  leaf_embeddings : List LeafEmbeddingRow

/-- `SELECT ... FROM raw_artifacts WHERE id = :artifact_id AND org_id = :org_id`. -/
def get_artifact (db : DBState) (artifact_id org_id : String) : Option ArtifactRow :=
  db.raw_artifacts.find? (fun r => r.id == artifact_id && r.org_id == org_id)

/-- `SELECT ... FROM jobs WHERE id = :job_id` — no tenant tag in the query. -/
def get_job (db : DBState) (job_id : String) : Option JobRow :=
  db.jobs.find? (fun r => r.id == job_id)

/-- `SELECT ... FROM model_registry WHERE id = :model_id AND org_id = :org_id`. -/
def get_model (db : DBState) (model_id org_id : String) : Option ModelRow :=
  db.model_registry.find? (fun r => r.id == model_id && r.org_id == org_id)

/-- `SELECT ... FROM samples WHERE id = :sample_id AND org_id = :org_id`. -/
def get_sample (db : DBState) (sample_id org_id : String) : Option SampleRow :=
  db.samples.find? (fun r => r.id == sample_id && r.org_id == org_id)

/-- `SELECT ... FROM sample_features WHERE sample_id = ... AND
feature_set_id = ... AND org_id = ...`. -/
def get_sample_features_by_feature_set (db : DBState)
    (sample_id feature_set_id org_id : String) : Option SampleFeaturesRow :=
  db.sample_features.find? (fun r =>
    r.sample_id == sample_id && r.feature_set_id == feature_set_id && r.org_id == org_id)

/-- The fixed `feature_list` JSON written by `get_or_create_feature_set`. -/
def core_v1_feature_list : JValue :=
  JValue.obj
    [("timeseries", JValue.arr
        [JValue.str "baseline_mean", JValue.str "baseline_std", JValue.str "y_max",
         JValue.str "y_min", JValue.str "t_at_max", JValue.str "auc",
         JValue.str "slope_early", JValue.str "t_halfmax", JValue.str "snr"]),
     ("endpoint", JValue.arr [JValue.str "endpoint_value"]),
     ("global", JValue.arr [JValue.str "num_channels", JValue.str "signal_quality_flag"])]

/-- Get-or-create of a feature set, keyed by `(org_id, name)`. -/
def get_or_create_feature_set (db : DBState) (org_id name version new_id : String) :
    String × DBState :=
  match db.feature_sets.find? (fun r => r.org_id == org_id && r.name == name) with
  | some row => (row.id, db)
  | none =>
      (new_id,
       { db with feature_sets :=
          db.feature_sets ++ [⟨new_id, org_id, name, version, core_v1_feature_list⟩] })

/-- Upsert of sample features: the existence check and the `UPDATE` filter on
`(sample_id, feature_set_id)` only — the tenant tag is not part of the
predicate (the insert path does tag the new row). -/
def upsert_sample_features (db : DBState) (org_id sample_id feature_set_id artifact_id : String)
    (features : FeatureMap) (new_id now : String) : String × DBState :=
  match db.sample_features.find? (fun r =>
      r.sample_id == sample_id && r.feature_set_id == feature_set_id) with
  | some existing =>
      (existing.id,
       { db with sample_features := db.sample_features.map (fun r =>
          if r.id == existing.id then
            { r with features := features, artifact_id := artifact_id, computed_at := now }
          else r) })
  | none =>
      (new_id,
       { db with sample_features := db.sample_features ++
          [⟨new_id, org_id, sample_id, feature_set_id, artifact_id, features, now⟩] })

/-- `UPDATE jobs SET status/output/error/updated_at WHERE id = :job_id`. -/
def update_job_status (db : DBState) (job_id status : String)
    (output error : Option String) : DBState :=
  { db with jobs := db.jobs.map (fun r =>
      if r.id == job_id then { r with status := status, output := output, error := error }
      else r) }

/-- Upsert of a prediction: the existence check and the `UPDATE` filter on
`(sample_id, model_id)` only — no tenant tag in the predicate. -/
def upsert_prediction (db : DBState) (org_id sample_id model_id : String)
    (y_hat threshold : ℝ) (predicted_class : ℤ) (new_id now : String) : String × DBState :=
  match db.predictions.find? (fun r =>
      r.sample_id == sample_id && r.model_id == model_id) with
  | some existing =>
      (existing.id,
       { db with predictions := db.predictions.map (fun r =>
          if r.id == existing.id then
            { r with y_hat := y_hat, threshold := threshold,
                     predicted_class := predicted_class, created_at := now }
          else r) })
  | none =>
      (new_id,
       { db with predictions := db.predictions ++
          [⟨new_id, org_id, sample_id, model_id, y_hat, threshold, predicted_class, now⟩] })

/-- Upsert of a leaf embedding: existence check on `(sample_id, model_id)`
only — no tenant tag in the predicate. -/
def upsert_leaf_embedding (db : DBState) (org_id sample_id model_id : String)
    (leaf_indices : List ℤ) (new_id now : String) : String × DBState :=
  match db.leaf_embeddings.find? (fun r =>
      r.sample_id == sample_id && r.model_id == model_id) with
  | some existing =>
      (existing.id,
       { db with leaf_embeddings := db.leaf_embeddings.map (fun r =>
          if r.id == existing.id then { r with leaf_indices := leaf_indices, created_at := now }
          else r) })
  | none =>
      (new_id,
       { db with leaf_embeddings := db.leaf_embeddings ++
          [⟨new_id, org_id, sample_id, model_id, leaf_indices, now⟩] })

/-! ### Extraction job runner (`consumer.py`)

`process_extract_features_job` runs steps 1–9 of the protocol inside one
`try`.  External effects appear as oracles in `RunEnv`: the blob fetch and
the gateway round-trips that can raise carry an `Except`, `json.loads` is an
abstract decoder, the traceback text is a parameter.  The runner's returned
trace is the ordered list of `update_job_status` calls it makes. -/

structure JobData where
  job_id : String
  org_id : String
  artifact_id : String
  feature_set : Option String

structure JobOutput where
  sample_id : String
  feature_set : String
  num_features : ℕ
  feature_record_id : String

structure StatusWrite where
  job_id : String
  status : String
  output : Option JobOutput
  error : Option String

structure RunEnv where
  db : DBState
  feature_set_gateway : Except String Unit
  blob : Except String String
  upsert_gateway : Except String Unit
  jsonOf : String → Option JValue
  fresh_fs_id : String
  fresh_feat_id : String
  now : String
  tb : String

/-- The `EXTRACTORS` registry keyed by schema version; the endpoint entry
decodes its content with the ambient `json.loads` model (`none` standing for
a `JSONDecodeError`, which the extractor's validation surfaces as a JSON
parsing error). -/
noncomputable def EXTRACTORS_get (jsonOf : String → Option JValue) (schema_version : String) :
    Option (String → ExtractionResult) :=
  if schema_version = "v1_timeseries_csv" then some TimeseriesCSVExtractor.extract
  else if schema_version = "v1_endpoint_json" then
    some (fun content =>
      match jsonOf content with
      | some j => EndpointJSONExtractor.extract j
      | none => ExtractionResult.failure "JSON parsing error")
  else none

/-- Steps 2–8 of the runner, as the value of the `try` body after the
initial `running` write: either the success output or the first raised
error's message.  `if not sample_id` is falsy both for `None` and for an
empty string. -/
noncomputable def runBody (jd : JobData) (env : RunEnv) : Except String JobOutput :=
  match get_artifact env.db jd.artifact_id jd.org_id with
  | none => .error ("Artifact " ++ jd.artifact_id ++ " not found or org mismatch")
  | some artifact =>
    match artifact.sample_id with
    | none => .error "Artifact is not attached to a sample"
    | some sid =>
      if sid = "" then .error "Artifact is not attached to a sample"
      else
        let feature_set_name := jd.feature_set.getD "core_v1"
        match env.feature_set_gateway with
        | .error e => .error e
        | .ok _ =>
          let fsr := get_or_create_feature_set env.db jd.org_id feature_set_name "1.0.0"
            env.fresh_fs_id
          match env.blob with
          | .error e => .error e
          | .ok content =>
            match EXTRACTORS_get env.jsonOf artifact.schema_version with
            | none => .error ("Unsupported schema version: " ++ artifact.schema_version ++
                ". Supported versions: v1_timeseries_csv, v1_endpoint_json")
            | some extractor =>
              let result := extractor content
              if result.success = false then
                .error ("Feature extraction failed: " ++ result.error.getD "None")
              else
                match env.upsert_gateway with
                | .error e => .error e
                | .ok _ =>
                  let up := upsert_sample_features fsr.2 jd.org_id sid fsr.1 jd.artifact_id
                    result.features env.fresh_feat_id env.now
                  .ok ⟨sid, feature_set_name, result.num_features, up.1⟩

/-- The runner (`process_extract_features_job`): the `running` write, then
either the `succeeded` write with the output payload, or — for any error
raised in the body — the `failed` write carrying the message and the first
500 characters of the traceback.  The function always returns its write
trace; nothing re-raises. -/
noncomputable def process_extract_features_job (jd : JobData) (env : RunEnv) :
    List StatusWrite :=
  let running : StatusWrite := ⟨jd.job_id, "running", none, none⟩
  match runBody jd env with
  | .ok out => [running, ⟨jd.job_id, "succeeded", some out, none⟩]
  | .error e =>
      [running, ⟨jd.job_id, "failed", none, some (e ++ "\n\n" ++ pyTake env.tb 500)⟩]

/-! ### Claim-side definitions and concrete fixtures -/

/-- The nine per-channel time-series feature names. -/
def tsFeatureNames : List String :=
  ["baseline_mean", "baseline_std", "y_max", "y_min", "t_at_max", "auc",
   "slope_early", "t_halfmax", "snr"]

/-- Fatal situations of protocol steps 2–8, as enumerated by the spec:
artifact missing or tenant-mismatched, artifact without a sample id,
feature-set gateway failure, blob-fetch failure, unknown schema version,
extractor failure, persistence failure. -/
def FatalCase (jd : JobData) (env : RunEnv) : Prop :=
  get_artifact env.db jd.artifact_id jd.org_id = none ∨
  (∃ a, get_artifact env.db jd.artifact_id jd.org_id = some a ∧
    (a.sample_id = none ∨ a.sample_id = some "")) ∨
  (∃ e, env.feature_set_gateway = Except.error e) ∨
  (∃ e, env.blob = Except.error e) ∨
  (∃ a, get_artifact env.db jd.artifact_id jd.org_id = some a ∧
    EXTRACTORS_get env.jsonOf a.schema_version = none) ∨
  (∃ a f c, get_artifact env.db jd.artifact_id jd.org_id = some a ∧
    EXTRACTORS_get env.jsonOf a.schema_version = some f ∧
    env.blob = Except.ok c ∧ (f c).success = false) ∨
  (∃ e, env.upsert_gateway = Except.error e)

/-- Channel entries of a decoded endpoint payload (the "channels" array). -/
def epItems (data : JValue) : List JValue :=
  match data with
  | JValue.obj fields =>
    match dictGet? fields "channels" with
    | some (JValue.arr items) => items
    | _ => []
  | _ => []

/-- Metadata fields of a decoded endpoint payload. -/
def epMeta (data : JValue) : List (String × JValue) :=
  match data with
  | JValue.obj fields =>
    match dictGet? fields "metadata" with
    | some (JValue.obj mf) => mf
    | _ => []
  | _ => []

/-- Fixture for C1: a job and a prediction both owned by tenant "T1". -/
noncomputable def dbC1 : DBState :=
  { raw_artifacts := []
    jobs := [⟨"j1", "T1", "extract_features", "queued", none, none, none⟩]
    model_registry := []
    samples := []
    feature_sets := []
    sample_features := []
    predictions := [⟨"p1", "T1", "s1", "m1", 1 / 5, 1 / 2, 0, "t0"⟩]
    leaf_embeddings := [] }

/-- Fixture for C6: an accepted endpoint payload whose channel label
contains a dot. -/
noncomputable def epBadPayload : JValue :=
  JValue.obj [("channels", JValue.arr
    [JValue.obj [("channel", JValue.str "a.b"), ("value", JValue.num 1)]])]

/-- Fixture for C8: an artifact with an unsupported schema version. -/
def dbC8 : DBState :=
  { raw_artifacts := [⟨"a1", "T1", "e1", some "s1", "key1", "f.csv", "text/csv",
      "hash", "v2_foo"⟩]
    jobs := [⟨"j1", "T1", "extract_features", "queued", none, none, none⟩]
    model_registry := []
    samples := []
    feature_sets := []
    sample_features := []
    predictions := []
    leaf_embeddings := [] }

def jdC8 : JobData := ⟨"j1", "T1", "a1", none⟩

def envC8 : RunEnv :=
  ⟨dbC8, Except.ok (), Except.ok "boom", Except.ok (), fun _ => none,
   "fs1", "sf1", "t0", "Traceback (most recent call last): ValueError"⟩

/-- Fixture for C3: a loaded model whose booster scores every vector 1/2 —
exactly the default threshold, probing the boundary case. -/
noncomputable def mC3 : LoadedModel :=
  ⟨⟨"core_v1", ["x", "y"], "binary", 1 / 2, none⟩, 3,
   fun _ => 1 / 2, fun _ => [3, 7, 2]⟩

/-! ## Helper lemmas -/

lemma pyTake_length_le (s : String) (n : ℕ) : (pyTake s n).length ≤ n := by
  show (s.data.take n).length ≤ n
  simp [List.length_take]

lemma self_le_foldl_max (xs : List ℝ) (a : ℝ) : a ≤ xs.foldl max a := by
  induction xs generalizing a with
  | nil => simp
  | cons w ws ih => exact le_trans (le_max_left a w) (ih (max a w))

lemma le_foldl_max (xs : List ℝ) (a : ℝ) (x : ℝ) (hx : x ∈ xs) : x ≤ xs.foldl max a := by
  induction xs generalizing a with
  | nil => cases hx
  | cons z zs ih =>
    rcases List.mem_cons.mp hx with h | h
    · subst h
      exact le_trans (le_max_right a x) (self_le_foldl_max zs (max a x))
    · exact ih (max a z) h

lemma foldl_max_mem (xs : List ℝ) (a : ℝ) : xs.foldl max a = a ∨ xs.foldl max a ∈ xs := by
  induction xs generalizing a with
  | nil => exact Or.inl rfl
  | cons x xs ih =>
    have hstep : (x :: xs).foldl max a = xs.foldl max (max a x) := rfl
    rcases ih (max a x) with h | h
    · rcases max_choice a x with h2 | h2
      · left; rw [hstep, h, h2]
      · right; rw [hstep, h, h2]; exact List.mem_cons_self x xs
    · right
      rw [hstep]
      exact List.mem_cons_of_mem x h

lemma sum_le_card_mul (xs : List ℝ) (M : ℝ) (h : ∀ x ∈ xs, x ≤ M) :
    xs.sum ≤ xs.length * M := by
  induction xs with
  | nil => simp
  | cons x xs ih =>
    have h1 := h x (List.mem_cons_self x xs)
    have h2 := ih (fun y hy => h y (List.mem_cons_of_mem x hy))
    simp only [List.sum_cons, List.length_cons]
    push_cast
    linarith

lemma meanL_le_of_forall_le (xs : List ℝ) (M : ℝ) (hne : xs ≠ [])
    (h : ∀ x ∈ xs, x ≤ M) : meanL xs ≤ M := by
  have hlen : (0 : ℝ) < xs.length := by
    have := List.length_pos.mpr hne
    exact_mod_cast this
  rw [meanL, div_le_iff₀ hlen]
  have := sum_le_card_mul xs M h
  linarith

lemma string_data_inj {a b : String} (h : a.data = b.data) : a = b := by
  cases a
  cases b
  exact congrArg String.mk h

lemma chKey_inj (ch : String) {a b : String} (h : chKey ch a = chKey ch b) : a = b := by
  have hd := congrArg String.data h
  simp only [chKey, String.data_append] at hd
  exact string_data_inj (List.append_cancel_left hd)

lemma chKey_beq (ch a b : String) : (chKey ch a == chKey ch b) = (a == b) := by
  by_cases h : a = b
  · subst h; simp
  · have hne : chKey ch a ≠ chKey ch b := fun hc => h (chKey_inj ch hc)
    simp [h, hne]

lemma lowQualityLoop_iff (fm : FeatureMap) (th1 th2 : ℝ) (channels : List String) :
    lowQualityLoop fm th1 th2 channels ↔
      ∃ ch ∈ channels,
        (∃ r, dictGet? fm (chKey ch "baseline_std") = some (JValue.num r) ∧ r > th1) ∨
        (∃ r, dictGet? fm (chKey ch "snr") = some (JValue.num r) ∧ r < th2) := by
  induction channels with
  | nil => simp [lowQualityLoop]
  | cons c cs ih =>
    simp only [lowQualityLoop, ih, List.mem_cons]
    constructor
    · rintro (h | h | ⟨ch, hch, h⟩)
      · exact ⟨c, Or.inl rfl, Or.inl h⟩
      · exact ⟨c, Or.inl rfl, Or.inr h⟩
      · exact ⟨ch, Or.inr hch, h⟩
    · rintro ⟨ch, hch | hch, h⟩
      · subst hch
        rcases h with h | h
        · exact Or.inl h
        · exact Or.inr (Or.inl h)
      · exact Or.inr (Or.inr ⟨ch, hch, h⟩)

lemma dictGet?_cons_true {k k' : String} (h : (k == k') = true) (v : JValue)
    (m : FeatureMap) : dictGet? ((k, v) :: m) k' = some v := by
  simp [dictGet?, List.find?, h]

lemma dictGet?_cons_false {k k' : String} (h : (k == k') = false) (v : JValue)
    (m : FeatureMap) : dictGet? ((k, v) :: m) k' = dictGet? m k' := by
  simp [dictGet?, List.find?, h]

lemma maxD_mem (ys : List ℝ) (hne : ys ≠ []) : maxD ys ∈ ys := by
  cases ys with
  | nil => exact absurd rfl hne
  | cons x xs =>
    rw [maxD]
    rcases foldl_max_mem xs x with h | h
    · rw [h]; exact List.mem_cons_self x xs
    · exact List.mem_cons_of_mem x h

lemma le_maxD (ys : List ℝ) (x : ℝ) (hx : x ∈ ys) : x ≤ maxD ys := by
  cases ys with
  | nil => cases hx
  | cons z zs =>
    rw [maxD]
    rcases List.mem_cons.mp hx with h | h
    · rw [h]; exact self_le_foldl_max zs z
    · exact le_foldl_max zs z x h

lemma take_ne_nil_of_pos (ys : List ℝ) (b : ℕ) (hb : 1 ≤ b) (hne : ys ≠ []) :
    ys.take b ≠ [] := by
  cases ys with
  | nil => exact absurd rfl hne
  | cons z zs =>
    cases b with
    | zero => exact absurd hb (by decide)
    | succ n => simp

/-- The half-max threshold never exceeds the maximum of the signal, so the
scan target is attained (at latest) at the maximum. -/
lemma halfmax_attained (ys : List ℝ) (hne : ys ≠ []) (b : ℕ) (hb : 1 ≤ b) :
    ∃ v ∈ ys, v ≥ meanL (ys.take b) + 0.5 * (maxD ys - meanL (ys.take b)) := by
  have hmean : meanL (ys.take b) ≤ maxD ys := by
    refine meanL_le_of_forall_le (ys.take b) (maxD ys) (take_ne_nil_of_pos ys b hb hne) ?_
    intro x hx
    exact le_maxD ys x (List.mem_of_mem_take hx)
  refine ⟨maxD ys, maxD_mem ys hne, ?_⟩
  have h05 : (0.5 : ℝ) = 1 / 2 := by norm_num
  rw [h05]
  linarith

lemma scanFirstGe_exists (ts ys : List ℝ) (c : ℝ) (hlen : ts.length = ys.length)
    (hex : ∃ v ∈ ys, v ≥ c) : ∃ w, scanFirstGe ts ys c = some w := by
  induction ys generalizing ts with
  | nil =>
    obtain ⟨v, hv, _⟩ := hex
    cases hv
  | cons y0 ys' ih =>
    cases ts with
    | nil => simp at hlen
    | cons t0 ts' =>
      by_cases h0 : y0 ≥ c
      · exact ⟨t0, by rw [scanFirstGe, if_pos h0]⟩
      · obtain ⟨v, hv, hvc⟩ := hex
        rcases List.mem_cons.mp hv with h | h
        · subst h
          exact absurd hvc h0
        · obtain ⟨w, hw⟩ := ih ts' (by simpa using hlen) ⟨v, h, hvc⟩
          exact ⟨w, by rw [scanFirstGe, if_neg h0, hw]⟩

lemma sum_eq_zero_all_zero (l : List ℝ) (hnn : ∀ x ∈ l, 0 ≤ x) (hz : l.sum = 0) :
    ∀ x ∈ l, x = 0 := by
  induction l with
  | nil => intro x hx; cases hx
  | cons a as ih =>
    have ha : 0 ≤ a := hnn a (List.mem_cons_self a as)
    have has : 0 ≤ as.sum :=
      List.sum_nonneg (fun x hx => hnn x (List.mem_cons_of_mem a hx))
    have hsum : a + as.sum = 0 := by simpa using hz
    have ha0 : a = 0 := by linarith
    have hassum : as.sum = 0 := by linarith
    intro x hx
    rcases List.mem_cons.mp hx with h | h
    · rw [h, ha0]
    · exact ih (fun z hz2 => hnn z (List.mem_cons_of_mem a hz2)) hassum x h

lemma sum_map_sub_const (l : List ℝ) (c : ℝ) :
    (l.map (fun v => v - c)).sum = l.sum - l.length * c := by
  induction l with
  | nil => simp
  | cons x xs ih =>
    simp only [List.map_cons, List.sum_cons, List.length_cons, ih]
    push_cast
    ring

lemma sum_dev_mean_zero (l : List ℝ) (hne : l ≠ []) :
    (l.map (fun v => v - meanL l)).sum = 0 := by
  have hlen : (l.length : ℝ) ≠ 0 :=
    Nat.cast_ne_zero.mpr (fun h0 => hne (List.length_eq_zero.mp h0))
  rw [sum_map_sub_const, meanL]
  field_simp

lemma sum_sq_shift (l : List ℝ) (c : ℝ) :
    (l.map (fun v => (v - c) ^ 2)).sum =
      (l.map (fun v => v ^ 2)).sum - 2 * c * l.sum + l.length * c ^ 2 := by
  induction l with
  | nil => simp
  | cons x xs ih =>
    simp only [List.map_cons, List.sum_cons, List.length_cons, ih]
    push_cast
    ring

/-- Among constant predictors, the mean minimizes the sum of squared
deviations. -/
lemma sq_dev_mean_min (l : List ℝ) (hne : l ≠ []) (k : ℝ) :
    (l.map (fun v => (v - meanL l) ^ 2)).sum ≤ (l.map (fun v => (v - k) ^ 2)).sum := by
  have hm : (0 : ℝ) < l.length := by
    exact_mod_cast List.length_pos.mpr hne
  have hm' : (l.length : ℝ) ≠ 0 := ne_of_gt hm
  rw [sum_sq_shift, sum_sq_shift, meanL]
  have hexp : 0 ≤ (l.length : ℝ) * k ^ 2 - 2 * k * l.sum + l.sum ^ 2 / l.length := by
    have h2 : 0 ≤ ((l.length : ℝ) * k - l.sum) ^ 2 / l.length :=
      div_nonneg (sq_nonneg _) (le_of_lt hm)
    have hid : ((l.length : ℝ) * k - l.sum) ^ 2 / l.length =
        (l.length : ℝ) * k ^ 2 - 2 * k * l.sum + l.sum ^ 2 / l.length := by
      field_simp
      ring
    rw [hid] at h2
    exact h2
  have hlhs : (l.map (fun v => v ^ 2)).sum - 2 * (l.sum / l.length) * l.sum +
      (l.length : ℝ) * (l.sum / l.length) ^ 2 =
      (l.map (fun v => v ^ 2)).sum - l.sum ^ 2 / l.length := by
    field_simp
    ring
  rw [hlhs]
  linarith

lemma fitCost_nonneg (pts : List (ℝ × ℝ)) (a b : ℝ) : 0 ≤ fitCost pts a b := by
  rw [fitCost]
  apply List.sum_nonneg
  intro x hx
  obtain ⟨p, _, rfl⟩ := List.mem_map.mp hx
  exact sq_nonneg _

/-- Algebraic expansion of the affine-fit cost around an arbitrary center
`(c, d)`. -/
lemma fitCost_expand (pts : List (ℝ × ℝ)) (a b c d : ℝ) :
    fitCost pts a b =
      (pts.map (fun p => (p.2 - d) ^ 2)).sum
      - 2 * a * (pts.map (fun p => (p.1 - c) * (p.2 - d))).sum
      + a ^ 2 * (pts.map (fun p => (p.1 - c) ^ 2)).sum
      + 2 * (a * c + b - d) *
          (a * (pts.map (fun p => p.1 - c)).sum - (pts.map (fun p => p.2 - d)).sum)
      + pts.length * (a * c + b - d) ^ 2 := by
  induction pts with
  | nil => simp [fitCost]
  | cons p ps ih =>
    simp only [fitCost, List.map_cons, List.sum_cons, List.length_cons] at ih ⊢
    push_cast
    linear_combination ih

lemma sum_fst_dev_zero (pts : List (ℝ × ℝ)) (hne : pts ≠ []) :
    (pts.map (fun p => p.1 - meanL (pts.map (fun q => q.1)))).sum = 0 := by
  have h := sum_dev_mean_zero (pts.map (fun q => q.1)) (by simp [hne])
  rw [List.map_map] at h
  exact h

lemma sum_snd_dev_zero (pts : List (ℝ × ℝ)) (hne : pts ≠ []) :
    (pts.map (fun p => p.2 - meanL (pts.map (fun q => q.2)))).sum = 0 := by
  have h := sum_dev_mean_zero (pts.map (fun q => q.2)) (by simp [hne])
  rw [List.map_map] at h
  exact h

/-- The slope value of `polyfitSlope` admits an intercept making the pair a
global minimizer of the sum of squared residuals — it is an
ordinary-least-squares fit of the points. -/
lemma polyfitSlope_optimal (pts : List (ℝ × ℝ)) (hne : pts ≠ []) :
    ∃ b : ℝ, ∀ a' b' : ℝ, fitCost pts (polyfitSlope pts) b ≤ fitCost pts a' b' := by
  have hmpos : 0 < pts.length := List.length_pos.mpr hne
  have hm : (0 : ℝ) < pts.length := by exact_mod_cast hmpos
  have hne2 : pts.map (fun q => q.2) ≠ [] := by simp [hne]
  have hval : polyfitSlope pts =
      (if (pts.map (fun p => (p.1 - meanL (pts.map (fun q => q.1))) ^ 2)).sum = 0
       then meanL (pts.map (fun q => q.1)) * meanL (pts.map (fun q => q.2)) /
         (meanL (pts.map (fun q => q.1)) ^ 2 + 1)
       else (pts.map (fun p => (p.1 - meanL (pts.map (fun q => q.1))) *
           (p.2 - meanL (pts.map (fun q => q.2))))).sum /
         (pts.map (fun p => (p.1 - meanL (pts.map (fun q => q.1))) ^ 2)).sum) := rfl
  set tbar := meanL (pts.map (fun q => q.1)) with htbar
  set ybar := meanL (pts.map (fun q => q.2)) with hybar
  set sxx := (pts.map (fun p => (p.1 - tbar) ^ 2)).sum with hsxxdef
  set sxy := (pts.map (fun p => (p.1 - tbar) * (p.2 - ybar))).sum with hsxydef
  rw [hval]
  by_cases hs : sxx = 0
  · -- rank-deficient design: every abscissa equals the mean
    rw [if_pos hs]
    have hall : ∀ p ∈ pts, p.1 = tbar := by
      intro p hp
      have hz := sum_eq_zero_all_zero (pts.map (fun p => (p.1 - tbar) ^ 2))
        (by
          intro x hx
          obtain ⟨q, _, rfl⟩ := List.mem_map.mp hx
          exact sq_nonneg _)
        hs _ (List.mem_map_of_mem _ hp)
      have hz0 : p.1 - tbar = 0 := sq_eq_zero_iff.mp hz
      linarith [hz0]
    refine ⟨ybar - tbar * ybar / (tbar ^ 2 + 1) * tbar, ?_⟩
    intro a' b'
    have hpt : ∀ (a b : ℝ), fitCost pts a b =
        ((pts.map (fun q => q.2)).map (fun v => (v - (a * tbar + b)) ^ 2)).sum := by
      intro a b
      rw [fitCost, List.map_map]
      congr 1
      apply List.map_congr_left
      intro p hp
      simp only [Function.comp]
      rw [hall p hp]
    rw [hpt, hpt]
    have hk : tbar * ybar / (tbar ^ 2 + 1) * tbar +
        (ybar - tbar * ybar / (tbar ^ 2 + 1) * tbar) = ybar := by ring
    rw [hk]
    have hmin := sq_dev_mean_min (pts.map (fun q => q.2)) hne2 (a' * tbar + b')
    rw [← hybar] at hmin
    exact hmin
  · -- full-rank design: the closed-form OLS estimator
    rw [if_neg hs]
    have hsnn : 0 ≤ sxx := by
      rw [hsxxdef]
      apply List.sum_nonneg
      intro x hx
      obtain ⟨q, _, rfl⟩ := List.mem_map.mp hx
      exact sq_nonneg _
    have hspos : 0 < sxx := lt_of_le_of_ne hsnn (Ne.symm hs)
    refine ⟨ybar - sxy / sxx * tbar, ?_⟩
    intro a' b'
    have hu := sum_fst_dev_zero pts hne
    have hv := sum_snd_dev_zero pts hne
    rw [← htbar] at hu
    rw [← hybar] at hv
    have h1 := fitCost_expand pts (sxy / sxx) (ybar - sxy / sxx * tbar) tbar ybar
    have h2 := fitCost_expand pts a' b' tbar ybar
    rw [← hsxydef, ← hsxxdef, hu, hv] at h1 h2
    rw [h1, h2]
    have hA : sxy / sxx * sxx = sxy := div_mul_cancel₀ sxy hs
    set X := sxy / sxx with hX
    rw [← hA]
    nlinarith [mul_nonneg (le_of_lt hspos) (sq_nonneg (a' - X)),
      mul_nonneg (le_of_lt hm) (sq_nonneg (a' * tbar + b' - ybar))]

/-! ## Claim theorems -/

/-- C2.  Extraction is deterministic: for a fixed payload and each extractor
variant, two independent calls of `extract` produce equal results — the same
success flag, the same feature map (equal values at every key), and the same
error text.  The embedded extractors are pure functions of the payload (the
source uses no randomness or ambient state), so both calls are literally the
same value. -/
theorem C2_extraction_deterministic :
    ∀ (p : String) (j : JValue),
      (TimeseriesCSVExtractor.extract p = TimeseriesCSVExtractor.extract p ∧
        (TimeseriesCSVExtractor.extract p).success =
          (TimeseriesCSVExtractor.extract p).success ∧
        (∀ k, dictGet? (TimeseriesCSVExtractor.extract p).features k =
          dictGet? (TimeseriesCSVExtractor.extract p).features k) ∧
        (TimeseriesCSVExtractor.extract p).error =
          (TimeseriesCSVExtractor.extract p).error) ∧
      (EndpointJSONExtractor.extract j = EndpointJSONExtractor.extract j ∧
        (EndpointJSONExtractor.extract j).success =
          (EndpointJSONExtractor.extract j).success ∧
        (∀ k, dictGet? (EndpointJSONExtractor.extract j).features k =
          dictGet? (EndpointJSONExtractor.extract j).features k) ∧
        (EndpointJSONExtractor.extract j).error =
          (EndpointJSONExtractor.extract j).error) :=
  fun _ _ => ⟨⟨rfl, rfl, fun _ => rfl, rfl⟩, ⟨rfl, rfl, fun _ => rfl, rfl⟩⟩

/-- C3.  For `run_inference` and every row of `run_batch_inference`,
`predicted_class = 1` iff `y_hat ≥ threshold`, where the threshold is the
caller's override if provided, else the model's default; equality of `y_hat`
and the threshold yields class 1. -/
theorem C3_predicted_class_iff :
    ∀ (m : LoadedModel) (sid mid : String) (fm : FeatureMap) (ov : Option ℝ),
      (((run_inference m sid mid fm ov).predicted_class = 1 ↔
          (run_inference m sid mid fm ov).y_hat ≥ (run_inference m sid mid fm ov).threshold) ∧
        (run_inference m sid mid fm ov).threshold = ov.getD m.config.default_threshold) ∧
      ∀ (samples : List (String × FeatureMap)),
        ∀ r ∈ run_batch_inference m mid samples ov,
          (r.predicted_class = 1 ↔ r.y_hat ≥ r.threshold) ∧
          r.threshold = ov.getD m.config.default_threshold := by
  intro m sid mid fm ov
  refine ⟨⟨?_, rfl⟩, ?_⟩
  · by_cases h :
      m.score (construct_feature_vector fm m.config.feature_order) ≥
        ov.getD m.config.default_threshold
    · simp [run_inference, h]
    · simp [run_inference, h]
  · intro samples r hr
    cases samples with
    | nil => simp [run_batch_inference] at hr
    | cons s ss =>
      simp only [run_batch_inference, List.mem_map] at hr
      obtain ⟨p, hp, rfl⟩ := hr
      refine ⟨?_, rfl⟩
      by_cases h :
        m.score (construct_feature_vector p.2 m.config.feature_order) ≥
          ov.getD m.config.default_threshold
      · simp [h]
      · simp [h]

/-- C3 witness: at a concrete model whose booster returns exactly the
threshold, the class is 1 both on the single path and on the batch path. -/
theorem C3_predicted_class_iff_witness :
    (run_inference mC3 "s1" "m1" [] none).predicted_class = 1 ∧
    (⟨"a", "m1", 1 / 2, 1 / 2, 1, [3, 7, 2], 3⟩ : PredictionResult) ∈
      run_batch_inference mC3 "m1" [("a", [])] none ∧
    (run_batch_inference mC3 "m1" [("a", [])] none).map (fun r => r.predicted_class) = [1] := by
  have hres : run_batch_inference mC3 "m1" [("a", [])] none =
      [⟨"a", "m1", 1 / 2, 1 / 2, 1, [3, 7, 2], 3⟩] := by
    simp only [run_batch_inference, List.map_cons, List.map_nil, mC3, Option.getD]
    rw [if_pos (by norm_num : ((1 : ℝ) / 2) ≥ 1 / 2)]
  have hmem : (⟨"a", "m1", 1 / 2, 1 / 2, 1, [3, 7, 2], 3⟩ : PredictionResult) ∈
      run_batch_inference mC3 "m1" [("a", [])] none := by
    rw [hres]
    exact List.mem_cons_self _ _
  refine ⟨?_, hmem, ?_⟩
  · refine ((C3_predicted_class_iff mC3 "s1" "m1" [] none).1.1).mpr ?_
    rw [(C3_predicted_class_iff mC3 "s1" "m1" [] none).1.2]
    show mC3.score (construct_feature_vector [] mC3.config.feature_order) ≥ _
    simp [mC3]
  · have h2 := (C3_predicted_class_iff mC3 "s1" "m1" [] none).2 [("a", [])] _ hmem
    have : (⟨"a", "m1", 1 / 2, 1 / 2, 1, [3, 7, 2], 3⟩ : PredictionResult).predicted_class
        = 1 := h2.1.mpr (by norm_num)
    rw [hres, List.map_cons, List.map_nil, this]

/-- C5.  The global kernel emits `signal_quality_flag = "low"` iff some
channel in the list has a non-null `baseline_std` above 10 or a non-null
`snr` below 3; otherwise (null or absent values contributing nothing) it
emits `"ok"`. -/
theorem C5_signal_quality_flag :
    ∀ (fm : FeatureMap) (channels : List String),
      (dictGet? (compute_global_features fm channels 10 3) "global.signal_quality_flag" =
          some (JValue.str "low") ↔
        ∃ ch ∈ channels,
          (∃ r, dictGet? fm (chKey ch "baseline_std") = some (JValue.num r) ∧ r > 10) ∨
          (∃ r, dictGet? fm (chKey ch "snr") = some (JValue.num r) ∧ r < 3)) ∧
      (dictGet? (compute_global_features fm channels 10 3) "global.signal_quality_flag" =
          some (JValue.str "ok") ↔
        ¬ ∃ ch ∈ channels,
          (∃ r, dictGet? fm (chKey ch "baseline_std") = some (JValue.num r) ∧ r > 10) ∨
          (∃ r, dictGet? fm (chKey ch "snr") = some (JValue.num r) ∧ r < 3)) := by
  intro fm channels
  have hk : (("global.num_channels" : String) == "global.signal_quality_flag") = false := by
    decide
  have hne : JValue.str "low" ≠ JValue.str "ok" := by
    intro h
    rw [JValue.str.injEq] at h
    exact absurd h (by decide)
  by_cases hlow : lowQualityLoop fm 10 3 channels
  · have hflag : dictGet? (compute_global_features fm channels 10 3)
        "global.signal_quality_flag" = some (JValue.str "low") := by
      simp [compute_global_features, dictGet?, List.find?, hk, hlow]
    rw [hflag]
    constructor
    · exact iff_of_true rfl ((lowQualityLoop_iff fm 10 3 channels).mp hlow)
    · refine iff_of_false (fun h => hne (Option.some.inj h)) ?_
      exact fun h => h ((lowQualityLoop_iff fm 10 3 channels).mp hlow)
  · have hflag : dictGet? (compute_global_features fm channels 10 3)
        "global.signal_quality_flag" = some (JValue.str "ok") := by
      simp [compute_global_features, dictGet?, List.find?, hk, hlow]
    rw [hflag]
    constructor
    · refine iff_of_false (fun h => hne (Option.some.inj h).symm) ?_
      exact fun h => hlow ((lowQualityLoop_iff fm 10 3 channels).mpr h)
    · exact iff_of_true rfl (fun h => hlow ((lowQualityLoop_iff fm 10 3 channels).mpr h))

/-- C1 counterexample.  The claim fails on the code: `get_job` filters by id
only, so a job owned by tenant "T1" is returned to any caller; and
`upsert_prediction` matches an existing row by `(sample_id, model_id)`
without the tenant tag, so a caller under tenant "T2" matches and overwrites
the prediction row owned by "T1" (the row keeps `org_id = "T1"` but receives
the "T2" caller's values). -/
theorem C1_counterexample :
    ("T1" : String) ≠ "T2" ∧
    (get_job dbC1 "j1").map (fun r => r.org_id) = some "T1" ∧
    (upsert_prediction dbC1 "T2" "s1" "m1" (9 / 10) (1 / 2) 1 "fresh" "t1").1 = "p1" ∧
    ((upsert_prediction dbC1 "T2" "s1" "m1" (9 / 10) (1 / 2) 1 "fresh" "t1").2.predictions.map
      (fun r => (r.org_id, r.y_hat))) = [("T1", (9 / 10 : ℝ))] := by
  refine ⟨by decide, ?_, ?_, ?_⟩
  · simp [dbC1, get_job, List.find?]
  · simp [dbC1, upsert_prediction, List.find?]
  · simp [dbC1, upsert_prediction, List.find?]

/-- C1 amended.  The tenant-scoped getters (`get_artifact`, `get_sample`,
`get_model`, `get_sample_features_by_feature_set`) do return not-found under
a tenant that owns no matching row; but `get_job` takes no tenant at all,
and each upsert matches an existing row by its `(sample, feature-set/model)`
key alone — it updates the matched row even when that row's `org_id` differs
from the caller's tenant, while freshly inserted rows are tagged with the
caller's tenant. -/
theorem C1_amended :
    (∀ (db : DBState) (id t' : String),
        (∀ r ∈ db.raw_artifacts, r.id = id → r.org_id ≠ t') →
        get_artifact db id t' = none) ∧
    (∀ (db : DBState) (id t' : String),
        (∀ r ∈ db.samples, r.id = id → r.org_id ≠ t') →
        get_sample db id t' = none) ∧
    (∀ (db : DBState) (id t' : String),
        (∀ r ∈ db.model_registry, r.id = id → r.org_id ≠ t') →
        get_model db id t' = none) ∧
    (∀ (db : DBState) (sid fsid t' : String),
        (∀ r ∈ db.sample_features,
          r.sample_id = sid → r.feature_set_id = fsid → r.org_id ≠ t') →
        get_sample_features_by_feature_set db sid fsid t' = none) ∧
    (∀ (db : DBState) (org sid mid : String) (yh th : ℝ) (cls : ℤ) (nid now : String)
        (e : PredictionRow),
        db.predictions.find? (fun r => r.sample_id == sid && r.model_id == mid) = some e →
        e.org_id ≠ org →
        (upsert_prediction db org sid mid yh th cls nid now).1 = e.id) ∧
    (∀ (db : DBState) (org sid mid : String) (yh th : ℝ) (cls : ℤ) (nid now : String),
        db.predictions.find? (fun r => r.sample_id == sid && r.model_id == mid) = none →
        (upsert_prediction db org sid mid yh th cls nid now).2.predictions =
          db.predictions ++ [⟨nid, org, sid, mid, yh, th, cls, now⟩]) ∧
    (∀ (db : DBState) (org sid mid : String) (ls : List ℤ) (nid now : String)
        (e : LeafEmbeddingRow),
        db.leaf_embeddings.find? (fun r => r.sample_id == sid && r.model_id == mid) = some e →
        e.org_id ≠ org →
        (upsert_leaf_embedding db org sid mid ls nid now).1 = e.id) ∧
    (∀ (db : DBState) (org sid mid : String) (ls : List ℤ) (nid now : String),
        db.leaf_embeddings.find? (fun r => r.sample_id == sid && r.model_id == mid) = none →
        (upsert_leaf_embedding db org sid mid ls nid now).2.leaf_embeddings =
          db.leaf_embeddings ++ [⟨nid, org, sid, mid, ls, now⟩]) ∧
    (∀ (db : DBState) (org sid fsid aid : String) (fs : FeatureMap) (nid now : String)
        (e : SampleFeaturesRow),
        db.sample_features.find?
          (fun r => r.sample_id == sid && r.feature_set_id == fsid) = some e →
        e.org_id ≠ org →
        (upsert_sample_features db org sid fsid aid fs nid now).1 = e.id) ∧
    (∀ (db : DBState) (org sid fsid aid : String) (fs : FeatureMap) (nid now : String),
        db.sample_features.find?
          (fun r => r.sample_id == sid && r.feature_set_id == fsid) = none →
        (upsert_sample_features db org sid fsid aid fs nid now).2.sample_features =
          db.sample_features ++ [⟨nid, org, sid, fsid, aid, fs, now⟩]) := by
  refine ⟨?_, ?_, ?_, ?_, ?_, ?_, ?_, ?_, ?_, ?_⟩
  · intro db id t' h
    rw [get_artifact, List.find?_eq_none]
    intro r hr
    simp only [Bool.and_eq_true, beq_iff_eq, not_and]
    exact h r hr
  · intro db id t' h
    rw [get_sample, List.find?_eq_none]
    intro r hr
    simp only [Bool.and_eq_true, beq_iff_eq, not_and]
    exact h r hr
  · intro db id t' h
    rw [get_model, List.find?_eq_none]
    intro r hr
    simp only [Bool.and_eq_true, beq_iff_eq, not_and]
    exact h r hr
  · intro db sid fsid t' h
    rw [get_sample_features_by_feature_set, List.find?_eq_none]
    intro r hr
    simp only [Bool.and_eq_true, beq_iff_eq, not_and]
    intro h1 h2
    exact h r hr h1.1 h1.2 h2
  · intro db org sid mid yh th cls nid now e hfind _
    simp [upsert_prediction, hfind]
  · intro db org sid mid yh th cls nid now hfind
    simp [upsert_prediction, hfind]
  · intro db org sid mid ls nid now e hfind _
    simp [upsert_leaf_embedding, hfind]
  · intro db org sid mid ls nid now hfind
    simp [upsert_leaf_embedding, hfind]
  · intro db org sid fsid aid fs nid now e hfind _
    simp [upsert_sample_features, hfind]
  · intro db org sid fsid aid fs nid now hfind
    simp [upsert_sample_features, hfind]

/-- C1 amended witness: at the concrete state `dbC1`, a foreign tenant gets
not-found from the scoped getters, yet its prediction upsert matches (and so
overwrites) the "T1"-owned row. -/
theorem C1_amended_witness :
    get_artifact dbC1 "a1" "T2" = none ∧
    get_model dbC1 "m9" "T2" = none ∧
    (upsert_prediction dbC1 "T2" "s1" "m1" (9 / 10) (1 / 2) 1 "fresh" "t1").1 = "p1" := by
  refine ⟨?_, ?_, ?_⟩
  · refine C1_amended.1 dbC1 "a1" "T2" ?_
    intro r hr
    simp [dbC1] at hr
  · refine C1_amended.2.2.1 dbC1 "m9" "T2" ?_
    intro r hr
    simp [dbC1] at hr
  · refine C1_amended.2.2.2.2.1 dbC1 "T2" "s1" "m1" (9 / 10) (1 / 2) 1 "fresh" "t1"
      ⟨"p1", "T1", "s1", "m1", 1 / 5, 1 / 2, 0, "t0"⟩ ?_ ?_
    · simp [dbC1, List.find?]
    · decide

/-- C7.  Batch inference returns exactly one result per input pair, with the
sample ids in exactly the input order, and the empty batch yields the empty
output without error. -/
theorem C7_batch_order :
    ∀ (m : LoadedModel) (mid : String) (samples : List (String × FeatureMap))
      (ov : Option ℝ),
      (run_batch_inference m mid samples ov).map (fun r => r.sample_id) =
        samples.map (fun p => p.1) ∧
      (run_batch_inference m mid samples ov).length = samples.length ∧
      run_batch_inference m mid [] ov = [] := by
  intro m mid samples ov
  refine ⟨?_, ?_, rfl⟩
  · cases samples with
    | nil => rfl
    | cons s ss => simp [run_batch_inference, List.map_map, Function.comp]
  · cases samples with
    | nil => rfl
    | cons s ss => simp [run_batch_inference]

/-- C8.  Any fatal error in protocol steps 2–8 (artifact missing or
tenant-mismatched, artifact without a sample id, gateway failure on the
feature set, blob-fetch failure, unknown schema version, extractor failure,
persistence failure) makes the runner write status `failed` carrying the
error text plus the traceback truncated to its first 500 characters — and
the runner returns its write trace normally, re-raising nothing. -/
theorem C8_fatal_writes_failed :
    ∀ (jd : JobData) (env : RunEnv), FatalCase jd env →
      ∃ e, process_extract_features_job jd env =
          [⟨jd.job_id, "running", none, none⟩,
           ⟨jd.job_id, "failed", none, some (e ++ "\n\n" ++ pyTake env.tb 500)⟩] ∧
        (pyTake env.tb 500).length ≤ 500 := by
  intro jd env hfatal
  have hbody : ∃ e, runBody jd env = Except.error e := by
    cases hb : runBody jd env with
    | error e => exact ⟨e, rfl⟩
    | ok out =>
      exfalso
      rw [runBody] at hb
      cases hart : get_artifact env.db jd.artifact_id jd.org_id with
      | none =>
        simp only [hart] at hb
        exact Except.noConfusion hb
      | some artifact =>
        simp only [hart] at hb
        cases hsid : artifact.sample_id with
        | none =>
          simp only [hsid] at hb
          exact Except.noConfusion hb
        | some sid =>
          simp only [hsid] at hb
          by_cases hempty : sid = ""
          · rw [if_pos hempty] at hb
            simp at hb
          · rw [if_neg hempty] at hb
            cases hfs : env.feature_set_gateway with
            | error e =>
              simp only [hfs] at hb
              exact Except.noConfusion hb
            | ok u =>
              simp only [hfs] at hb
              cases hblob : env.blob with
              | error e =>
                simp only [hblob] at hb
                exact Except.noConfusion hb
              | ok content =>
                simp only [hblob] at hb
                cases hreg : EXTRACTORS_get env.jsonOf artifact.schema_version with
                | none =>
                  simp only [hreg] at hb
                  exact Except.noConfusion hb
                | some extractor =>
                  simp only [hreg] at hb
                  by_cases hsucc : (extractor content).success = false
                  · rw [if_pos hsucc] at hb
                    simp at hb
                  · rw [if_neg hsucc] at hb
                    cases hup : env.upsert_gateway with
                    | error e =>
                      simp only [hup] at hb
                      exact Except.noConfusion hb
                    | ok u2 =>
                      rcases hfatal with h | h | h | h | h | h | h
                      · rw [hart] at h
                        simp at h
                      · obtain ⟨a, ha, hcase⟩ := h
                        rw [hart] at ha
                        obtain rfl := Option.some.inj ha
                        rcases hcase with hc | hc
                        · rw [hsid] at hc
                          simp at hc
                        · rw [hsid] at hc
                          exact hempty (Option.some.inj hc)
                      · obtain ⟨e, he⟩ := h
                        rw [hfs] at he
                        simp at he
                      · obtain ⟨e, he⟩ := h
                        rw [hblob] at he
                        simp at he
                      · obtain ⟨a, ha, hn⟩ := h
                        rw [hart] at ha
                        obtain rfl := Option.some.inj ha
                        rw [hreg] at hn
                        simp at hn
                      · obtain ⟨a, f, c, ha, hf, hc, hfail⟩ := h
                        rw [hart] at ha
                        obtain rfl := Option.some.inj ha
                        rw [hreg] at hf
                        obtain rfl := Option.some.inj hf
                        rw [hblob] at hc
                        obtain rfl := Except.ok.inj hc
                        exact hsucc hfail
                      · obtain ⟨e, he⟩ := h
                        rw [hup] at he
                        simp at he
  obtain ⟨e, he⟩ := hbody
  refine ⟨e, ?_, pyTake_length_le env.tb 500⟩
  simp [process_extract_features_job, he]

/-- C8 witness: a job whose artifact carries the unknown schema version
"v2_foo" is fatal, and the runner's trace is exactly the `running` write
followed by the truncated `failed` write. -/
theorem C8_fatal_writes_failed_witness :
    FatalCase jdC8 envC8 ∧
    ∃ e, process_extract_features_job jdC8 envC8 =
        [⟨jdC8.job_id, "running", none, none⟩,
         ⟨jdC8.job_id, "failed", none, some (e ++ "\n\n" ++ pyTake envC8.tb 500)⟩] ∧
      (pyTake envC8.tb 500).length ≤ 500 := by
  have hart : get_artifact envC8.db "a1" "T1" =
      some ⟨"a1", "T1", "e1", some "s1", "key1", "f.csv", "text/csv", "hash", "v2_foo"⟩ := by
    simp [envC8, dbC8, get_artifact, List.find?]
  have hfatal : FatalCase jdC8 envC8 := by
    refine Or.inr (Or.inr (Or.inr (Or.inr (Or.inl ?_))))
    exact ⟨_, hart, by simp [EXTRACTORS_get, envC8]⟩
  exact ⟨hfatal, C8_fatal_writes_failed jdC8 envC8 hfatal⟩

/-- C4 (code bug).  The kernel's output depends on the relative order of
rows whose `t` values are tied: with `t = [0, 0]`, presenting `y` as
`[1, 3]` versus `[3, 1]` changes `baseline_mean` (1 versus 3) — and the same
holds for `slope_early`, `t_halfmax` and `snr`.  The claimed stable tie
order is therefore load-bearing, but the source sorts with `np.argsort(t)`
(and pandas `sort_values`) whose default quicksort is documented as *not*
stable, so for tied `t` the computed features are those of a
library-dependent tie order, not of the original relative order. -/
theorem C4_tie_order_changes_output :
    dictGet? (compute_timeseries_features [0, 0] [1, 3] "A") (chKey "A" "baseline_mean") =
      some (JValue.num 1) ∧
    dictGet? (compute_timeseries_features [0, 0] [3, 1] "A") (chKey "A" "baseline_mean") =
      some (JValue.num 3) := by
  have hsort1 : sortedPairs [0, 0] [1, 3] = [(0, 1), (0, 3)] := by
    rw [sortedPairs]
    simp [List.zip, List.zipWith, List.insertionSort, List.orderedInsert]
  have hsort2 : sortedPairs [0, 0] [3, 1] = [(0, 3), (0, 1)] := by
    rw [sortedPairs]
    simp [List.zip, List.zipWith, List.insertionSort, List.orderedInsert]
  constructor
  · unfold compute_timeseries_features
    rw [if_neg (by simp), hsort1]
    simp only []
    rw [dictGet?_cons_true ((chKey_beq "A" "baseline_mean" "baseline_mean").trans (by decide))]
    norm_num [meanL]
  · unfold compute_timeseries_features
    rw [if_neg (by simp), hsort2]
    simp only []
    rw [dictGet?_cons_true ((chKey_beq "A" "baseline_mean" "baseline_mean").trans (by decide))]
    norm_num [meanL]

/-- C10.  For non-empty input, `t_halfmax` is never null: the baseline mean
is a mean of a subset of `y`, so the half-max threshold is at most `max y`,
and the scan finds an index at latest at the position of the maximum. -/
theorem C10_t_halfmax_not_null :
    ∀ (t y : List ℝ) (ch : String), t.length = y.length → y ≠ [] →
      ∃ v : ℝ, dictGet? (compute_timeseries_features t y ch) (chKey ch "t_halfmax") =
        some (JValue.num v) := by
  intro t y ch hlen hy
  have hylen : y.length ≠ 0 := fun h0 => hy (List.length_eq_zero.mp h0)
  have hcond : ¬(t.length = 0 ∨ y.length = 0) := by
    rw [hlen]
    simp [hylen]
  unfold compute_timeseries_features
  rw [if_neg hcond]
  simp only []
  set ys : List ℝ := (sortedPairs t y).map (fun p => p.2) with hys
  set ts2 : List ℝ := (sortedPairs t y).map (fun p => p.1) with hts
  have hyslen : ys.length = y.length := by
    rw [hys, List.length_map, sortedPairs, List.length_insertionSort, List.length_zip,
      hlen, min_self]
  have hysne : ys ≠ [] := by
    intro hc
    rw [hc] at hyslen
    exact hylen hyslen.symm
  rw [dictGet?_cons_false ((chKey_beq ch "baseline_mean" "t_halfmax").trans (by decide)),
    dictGet?_cons_false ((chKey_beq ch "baseline_std" "t_halfmax").trans (by decide)),
    dictGet?_cons_false ((chKey_beq ch "y_max" "t_halfmax").trans (by decide)),
    dictGet?_cons_false ((chKey_beq ch "y_min" "t_halfmax").trans (by decide)),
    dictGet?_cons_false ((chKey_beq ch "t_at_max" "t_halfmax").trans (by decide)),
    dictGet?_cons_false ((chKey_beq ch "auc" "t_halfmax").trans (by decide)),
    dictGet?_cons_false ((chKey_beq ch "slope_early" "t_halfmax").trans (by decide)),
    dictGet?_cons_true ((chKey_beq ch "t_halfmax" "t_halfmax").trans (by decide))]
  have hlen2 : ts2.length = ys.length := by
    rw [hys, hts, List.length_map, List.length_map]
  obtain ⟨w, hw⟩ := scanFirstGe_exists ts2 ys
    (meanL (ys.take (max 1 (ys.length / 10))) +
      0.5 * (maxD ys - meanL (ys.take (max 1 (ys.length / 10)))))
    hlen2
    (halfmax_attained ys hysne (max 1 (ys.length / 10)) (le_max_left 1 _))
  rw [hw]
  exact ⟨w, rfl⟩

/-- C10 witness: a single-point channel has a non-null `t_halfmax`. -/
theorem C10_t_halfmax_not_null_witness :
    ∃ v : ℝ, dictGet? (compute_timeseries_features [0] [5] "A") (chKey "A" "t_halfmax") =
      some (JValue.num v) :=
  C10_t_halfmax_not_null [0] [5] "A" (by simp) (by simp)

/-- C9.  With `e = max(2, ⌊0.2·n⌋)` (which is always at least 2), the kernel
emits as `slope_early` the slope of an ordinary-least-squares affine fit of
the first `e` sorted points (the prefix `y[0:e]`, which Python slicing clamps
to the available points); for `n = 1` the emitted value is `0.0` — itself an
exact (hence least-squares) fit of the single-point prefix. -/
theorem C9_slope_early_ols :
    ∀ (t y : List ℝ) (ch : String), t.length = y.length → y ≠ [] →
      2 ≤ max 2 (y.length / 5) ∧
      (∃ s b : ℝ,
        dictGet? (compute_timeseries_features t y ch) (chKey ch "slope_early") =
          some (JValue.num s) ∧
        ∀ a' b' : ℝ,
          fitCost ((sortedPairs t y).take (max 2 (y.length / 5))) s b ≤
          fitCost ((sortedPairs t y).take (max 2 (y.length / 5))) a' b') ∧
      (y.length = 1 →
        dictGet? (compute_timeseries_features t y ch) (chKey ch "slope_early") =
          some (JValue.num 0)) := by
  intro t y ch hlen hy
  have hylen0 : y.length ≠ 0 := fun h0 => hy (List.length_eq_zero.mp h0)
  have hcond : ¬(t.length = 0 ∨ y.length = 0) := by
    rw [hlen]
    simp [hylen0]
  have hsplen : (sortedPairs t y).length = y.length := by
    rw [sortedPairs, List.length_insertionSort, List.length_zip, hlen, min_self]
  have hmaplen : ((sortedPairs t y).map (fun p => p.2)).length = y.length := by
    rw [List.length_map, hsplen]
  have hlook : dictGet? (compute_timeseries_features t y ch) (chKey ch "slope_early") =
      some (JValue.num
        (if 2 ≤ ((sortedPairs t y).take (max 2 (y.length / 5))).length
         then polyfitSlope ((sortedPairs t y).take (max 2 (y.length / 5)))
         else 0)) := by
    unfold compute_timeseries_features
    rw [if_neg hcond]
    simp only []
    rw [hmaplen]
    rw [dictGet?_cons_false ((chKey_beq ch "baseline_mean" "slope_early").trans (by decide)),
      dictGet?_cons_false ((chKey_beq ch "baseline_std" "slope_early").trans (by decide)),
      dictGet?_cons_false ((chKey_beq ch "y_max" "slope_early").trans (by decide)),
      dictGet?_cons_false ((chKey_beq ch "y_min" "slope_early").trans (by decide)),
      dictGet?_cons_false ((chKey_beq ch "t_at_max" "slope_early").trans (by decide)),
      dictGet?_cons_false ((chKey_beq ch "auc" "slope_early").trans (by decide)),
      dictGet?_cons_true ((chKey_beq ch "slope_early" "slope_early").trans (by decide))]
  refine ⟨le_max_left 2 _, ?_, ?_⟩
  · by_cases h2 : 2 ≤ ((sortedPairs t y).take (max 2 (y.length / 5))).length
    · have hne' : (sortedPairs t y).take (max 2 (y.length / 5)) ≠ [] := by
        intro hc
        rw [hc] at h2
        simp at h2
      obtain ⟨b, hb⟩ := polyfitSlope_optimal _ hne'
      exact ⟨polyfitSlope ((sortedPairs t y).take (max 2 (y.length / 5))), b,
        by rw [hlook, if_pos h2], hb⟩
    · have hlen1 : ((sortedPairs t y).take (max 2 (y.length / 5))).length =
          min (max 2 (y.length / 5)) y.length := by
        rw [List.length_take, hsplen]
      have hone : ((sortedPairs t y).take (max 2 (y.length / 5))).length = 1 := by
        rw [hlen1]
        rw [hlen1] at h2
        have hypos : 1 ≤ y.length := Nat.one_le_iff_ne_zero.mpr hylen0
        omega
      obtain ⟨p, hp⟩ := List.length_eq_one.mp hone
      refine ⟨0, p.2, by rw [hlook, if_neg h2], ?_⟩
      intro a' b'
      rw [hp]
      have hzero : fitCost [p] 0 p.2 = 0 := by
        simp [fitCost]
      rw [hzero]
      exact fitCost_nonneg [p] a' b'
  · intro hn1
    have h2 : ¬ 2 ≤ ((sortedPairs t y).take (max 2 (y.length / 5))).length := by
      rw [List.length_take, hsplen, hn1]
      omega
    rw [hlook, if_neg h2]

/-- C9 witness: for `t = [0, 1, 2]`, `y = [0, 2, 4]` the emitted
`slope_early` is the slope of an exact least-squares fit of the first two
sorted points. -/
theorem C9_slope_early_ols_witness :
    2 ≤ max 2 (([0, 2, 4] : List ℝ).length / 5) ∧
    (∃ s b : ℝ,
      dictGet? (compute_timeseries_features [0, 1, 2] [0, 2, 4] "A") (chKey "A" "slope_early") =
        some (JValue.num s) ∧
      ∀ a' b' : ℝ,
        fitCost ((sortedPairs [0, 1, 2] [0, 2, 4]).take
          (max 2 (([0, 2, 4] : List ℝ).length / 5))) s b ≤
        fitCost ((sortedPairs [0, 1, 2] [0, 2, 4]).take
          (max 2 (([0, 2, 4] : List ℝ).length / 5))) a' b') ∧
    (([0, 2, 4] : List ℝ).length = 1 →
      dictGet? (compute_timeseries_features [0, 1, 2] [0, 2, 4] "A") (chKey "A" "slope_early") =
        some (JValue.num 0)) :=
  C9_slope_early_ols [0, 1, 2] [0, 2, 4] "A" (by simp) (by simp)

lemma chanAux_append (cs nm : List Char) (h2 : '.' ∉ cs) (h3 : nameTail nm = true) :
    chanAux (cs ++ '.' :: nm) = true := by
  induction cs with
  | nil =>
    simp only [List.nil_append, chanAux, if_pos rfl]
    exact h3
  | cons c rest ih =>
    have hc : ¬ c = '.' := fun h => h2 (h ▸ List.mem_cons_self c rest)
    simp only [List.cons_append, chanAux, if_neg hc]
    exact ih (fun hmem => h2 (List.mem_cons_of_mem c hmem))

lemma chanTail_append (cs nm : List Char) (h1 : cs ≠ []) (h2 : '.' ∉ cs)
    (h3 : nameTail nm = true) : chanTail (cs ++ '.' :: nm) = true := by
  cases cs with
  | nil => exact absurd rfl h1
  | cons c rest =>
    have hc : c ≠ '.' := fun h => h2 (h ▸ List.mem_cons_self c rest)
    simp only [List.cons_append, chanTail, Bool.and_eq_true, bne_iff_ne, ne_eq]
    exact ⟨hc, chanAux_append rest nm (fun hmem => h2 (List.mem_cons_of_mem c hmem)) h3⟩

lemma chKey_data (ch nm : String) :
    (chKey ch nm).data =
      'c' :: 'h' :: 'a' :: 'n' :: 'n' :: 'e' :: 'l' :: '.' :: (ch.data ++ '.' :: nm.data) := by
  have hpre : ("channel." : String).data = ['c', 'h', 'a', 'n', 'n', 'e', 'l', '.'] := rfl
  have hdot : ("." : String).data = ['.'] := rfl
  simp [chKey, String.data_append, hpre, hdot]

lemma stripPre_self_append (ps rest : List Char) : stripPre ps (ps ++ rest) = some rest := by
  induction ps with
  | nil => rfl
  | cons p ps ih =>
    rw [List.cons_append,
      show stripPre (p :: ps) (p :: (ps ++ rest)) =
        if p = p then stripPre ps (ps ++ rest) else none from rfl,
      if_pos rfl, ih]

lemma keyShapeOK_chKey (ch nm : String) (h1 : ch.data ≠ []) (h2 : '.' ∉ ch.data)
    (h3 : nameTail nm.data = true) : keyShapeOK (chKey ch nm) = true := by
  have hckey : (chKey ch nm).data = ("channel.").data ++ (ch.data ++ '.' :: nm.data) := by
    rw [chKey_data]
    rfl
  rw [keyShapeOK, hckey, keyShapeChars, stripPre_self_append]
  exact chanTail_append ch.data nm.data h1 h2 h3

lemma keyShapeOK_meta (k : String) (h1 : k.data ≠ []) (h2 : '\n' ∉ k.data) :
    keyShapeOK ("metadata." ++ k) = true := by
  have hdata : ("metadata." ++ k).data = ("metadata.").data ++ k.data :=
    String.data_append _ _
  have hc : stripPre ("channel.").data (("metadata.").data ++ k.data) = none := rfl
  have hg : stripPre ("global.").data (("metadata.").data ++ k.data) = none := rfl
  rw [keyShapeOK, hdata, keyShapeChars, hc, hg, stripPre_self_append]
  show metaTail k.data = true
  rw [metaTail]
  simp only [Bool.and_eq_true, Bool.not_eq_true']
  constructor
  · rw [List.isEmpty_eq_false_iff_exists_mem]
    cases hk : k.data with
    | nil => exact absurd hk h1
    | cons c cs => exact ⟨c, List.mem_cons_self c cs⟩
  · rw [List.all_eq_true]
    intro c hc
    have : c ≠ '\n' := fun h => h2 (h ▸ hc)
    simpa using this

lemma tsFeatureNames_nameTail : ∀ nm ∈ tsFeatureNames, nameTail nm.data = true := by decide

lemma mem_keysOf_dictInsert (m : FeatureMap) (k : String) (v : JValue) (x : String)
    (hx : x ∈ keysOf (dictInsert m k v)) : x ∈ keysOf m ∨ x = k := by
  rw [dictInsert] at hx
  by_cases han : m.any (fun p => p.1 == k)
  · rw [if_pos han] at hx
    rw [keysOf, List.map_map] at hx
    obtain ⟨p, hp, hpx⟩ := List.mem_map.mp hx
    simp only [Function.comp] at hpx
    by_cases hpk : (p.1 == k) = true
    · rw [if_pos hpk] at hpx
      exact Or.inr hpx.symm
    · rw [if_neg hpk] at hpx
      exact Or.inl (hpx ▸ List.mem_map_of_mem (fun q => q.1) hp)
  · rw [if_neg han] at hx
    rw [keysOf, List.map_append] at hx
    rcases List.mem_append.mp hx with h | h
    · exact Or.inl h
    · simp only [List.map_cons, List.map_nil, List.mem_singleton] at h
      exact Or.inr h

lemma mem_keysOf_dictUpdate (m adds : FeatureMap) (x : String)
    (hx : x ∈ keysOf (dictUpdate m adds)) : x ∈ keysOf m ∨ x ∈ keysOf adds := by
  induction adds generalizing m with
  | nil => exact Or.inl hx
  | cons a rest ih =>
    rcases ih (dictInsert m a.1 a.2) hx with h | h
    · rcases mem_keysOf_dictInsert m a.1 a.2 x h with h2 | h2
      · exact Or.inl h2
      · exact Or.inr (h2 ▸ List.mem_cons_self a.1 (keysOf rest))
    · exact Or.inr (List.mem_cons_of_mem a.1 h)

lemma mem_keysOf_compute_ts (t y : List ℝ) (ch : String) (x : String)
    (hx : x ∈ keysOf (compute_timeseries_features t y ch)) :
    ∃ nm ∈ tsFeatureNames, x = chKey ch nm := by
  unfold compute_timeseries_features at hx
  split at hx
  · simp only [empty_channel_features, keysOf, List.map_cons, List.map_nil,
      List.mem_cons, List.not_mem_nil, or_false] at hx
    rcases hx with h | h | h | h | h | h | h | h | h
    · exact ⟨"baseline_mean", by simp [tsFeatureNames], h⟩
    · exact ⟨"baseline_std", by simp [tsFeatureNames], h⟩
    · exact ⟨"y_max", by simp [tsFeatureNames], h⟩
    · exact ⟨"y_min", by simp [tsFeatureNames], h⟩
    · exact ⟨"t_at_max", by simp [tsFeatureNames], h⟩
    · exact ⟨"auc", by simp [tsFeatureNames], h⟩
    · exact ⟨"slope_early", by simp [tsFeatureNames], h⟩
    · exact ⟨"t_halfmax", by simp [tsFeatureNames], h⟩
    · exact ⟨"snr", by simp [tsFeatureNames], h⟩
  · simp only [keysOf, List.map_cons, List.map_nil, List.mem_cons, List.not_mem_nil,
      or_false] at hx
    rcases hx with h | h | h | h | h | h | h | h | h
    · exact ⟨"baseline_mean", by simp [tsFeatureNames], h⟩
    · exact ⟨"baseline_std", by simp [tsFeatureNames], h⟩
    · exact ⟨"y_max", by simp [tsFeatureNames], h⟩
    · exact ⟨"y_min", by simp [tsFeatureNames], h⟩
    · exact ⟨"t_at_max", by simp [tsFeatureNames], h⟩
    · exact ⟨"auc", by simp [tsFeatureNames], h⟩
    · exact ⟨"slope_early", by simp [tsFeatureNames], h⟩
    · exact ⟨"t_halfmax", by simp [tsFeatureNames], h⟩
    · exact ⟨"snr", by simp [tsFeatureNames], h⟩

lemma mem_keysOf_tsChannelFeatures (good : List TSRow) (ch : String) (x : String)
    (hx : x ∈ keysOf (tsChannelFeatures good ch)) :
    ∃ nm ∈ tsFeatureNames, x = chKey ch nm := by
  unfold tsChannelFeatures at hx
  exact mem_keysOf_compute_ts _ _ _ _ hx

lemma mem_keysOf_ts_foldl (channels : List String) (good : List TSRow)
    (acc : FeatureMap) (x : String)
    (hx : x ∈ keysOf (channels.foldl
      (fun a ch => dictUpdate a (tsChannelFeatures good ch)) acc)) :
    x ∈ keysOf acc ∨ ∃ ch ∈ channels, ∃ nm ∈ tsFeatureNames, x = chKey ch nm := by
  induction channels generalizing acc with
  | nil => exact Or.inl hx
  | cons c cs ih =>
    rcases ih (dictUpdate acc (tsChannelFeatures good c)) hx with h | h
    · rcases mem_keysOf_dictUpdate _ _ _ h with h2 | h2
      · exact Or.inl h2
      · obtain ⟨nm, hnm, hxe⟩ := mem_keysOf_tsChannelFeatures good c x h2
        exact Or.inr ⟨c, List.mem_cons_self c cs, nm, hnm, hxe⟩
    · obtain ⟨ch, hch, rest⟩ := h
      exact Or.inr ⟨ch, List.mem_cons_of_mem c hch, rest⟩

lemma mem_keysOf_ep_foldl (items : List JValue) (acc : FeatureMap × List String) (x : String)
    (hx : x ∈ keysOf (items.foldl epFoldStep acc).1) :
    x ∈ keysOf acc.1 ∨ ∃ e ∈ items, x = chKey (epLabel e) "endpoint_value" := by
  induction items generalizing acc with
  | nil => exact Or.inl hx
  | cons e es ih =>
    rcases ih (epFoldStep acc e) hx with h | h
    · rcases mem_keysOf_dictUpdate _ _ _ h with h2 | h2
      · exact Or.inl h2
      · simp only [compute_endpoint_features, keysOf, List.map_cons, List.map_nil,
          List.mem_singleton] at h2
        exact Or.inr ⟨e, List.mem_cons_self e es, h2⟩
    · obtain ⟨e2, he2, rest⟩ := h
      exact Or.inr ⟨e2, List.mem_cons_of_mem e he2, rest⟩

lemma mem_keysOf_meta_foldl (mf : List (String × JValue)) (acc : FeatureMap) (x : String)
    (hx : x ∈ keysOf (mf.foldl
      (fun a p => dictInsert a ("metadata." ++ p.1) p.2) acc)) :
    x ∈ keysOf acc ∨ ∃ p ∈ mf, x = "metadata." ++ p.1 := by
  induction mf generalizing acc with
  | nil => exact Or.inl hx
  | cons q qs ih =>
    rcases ih (dictInsert acc ("metadata." ++ q.1) q.2) hx with h | h
    · rcases mem_keysOf_dictInsert _ _ _ _ h with h2 | h2
      · exact Or.inl h2
      · exact Or.inr ⟨q, List.mem_cons_self q qs, h2⟩
    · obtain ⟨p, hp, rest⟩ := h
      exact Or.inr ⟨p, List.mem_cons_of_mem q hp, rest⟩

/-- C6 counterexample.  The endpoint extractor accepts a payload whose
channel label contains a dot; the emitted key
`channel.a.b.endpoint_value` does not match
`^(channel\.[^.]+\.[a-z_]+|global\.[a-z_]+|metadata\..+)$`, so the claimed
key-shape invariant fails for arbitrary labels taken from the payload. -/
theorem C6_counterexample :
    (EndpointJSONExtractor.extract epBadPayload).success = true ∧
    "channel.a.b.endpoint_value" ∈ keysOf (EndpointJSONExtractor.extract epBadPayload).features ∧
    keyShapeOK "channel.a.b.endpoint_value" = false := by
  refine ⟨?_, ?_, by decide⟩
  · simp [EndpointJSONExtractor.extract, epValidate, epBadPayload, dictGet?, List.find?,
      epCheckEntries, List.insertionSort, List.orderedInsert, epFoldStep, epLabel, epValue,
      compute_endpoint_features, compute_global_features, dictUpdate, dictInsert,
      ExtractionResult.from_features, keysOf, chKey]
  · simp [EndpointJSONExtractor.extract, epValidate, epBadPayload, dictGet?, List.find?,
      epCheckEntries, List.insertionSort, List.orderedInsert, epFoldStep, epLabel, epValue,
      compute_endpoint_features, compute_global_features, dictUpdate, dictInsert,
      ExtractionResult.from_features, keysOf, chKey]

/-- C6 amended.  For payloads whose channel labels are non-empty and contain
no dot, and whose metadata keys are non-empty and contain no newline, every
key the extractors emit matches the documented shape; labels or metadata
keys outside those constraints can escape it (see the counterexample). -/
theorem C6_key_shapes_amended :
    (∀ content : String,
      (∀ ch ∈ tsChannels content, ch.data ≠ [] ∧ '.' ∉ ch.data) →
      ∀ k ∈ keysOf (TimeseriesCSVExtractor.extract content).features,
        keyShapeOK k = true) ∧
    (∀ data : JValue,
      (∀ e ∈ epItems data, (epLabel e).data ≠ [] ∧ '.' ∉ (epLabel e).data) →
      (∀ p ∈ epMeta data, p.1.data ≠ [] ∧ '\n' ∉ p.1.data) →
      ∀ k ∈ keysOf (EndpointJSONExtractor.extract data).features,
        keyShapeOK k = true) := by
  constructor
  · intro content hch k hk
    unfold TimeseriesCSVExtractor.extract at hk
    rcases htv : tsValidate content with ⟨bb, err⟩
    rw [htv] at hk
    cases bb with
    | false => simp [ExtractionResult.failure, keysOf] at hk
    | true =>
      simp only [] at hk
      by_cases hg : (tsGoodRows content).length = 0
      · rw [if_pos hg] at hk
        simp [ExtractionResult.failure, keysOf] at hk
      · rw [if_neg hg] at hk
        simp only [ExtractionResult.from_features] at hk
        rcases mem_keysOf_dictUpdate _ _ _ hk with h | h
        · rcases mem_keysOf_ts_foldl _ _ _ _ h with h2 | h2
          · simp [keysOf] at h2
          · obtain ⟨ch, hchm, nm, hnm, rfl⟩ := h2
            exact keyShapeOK_chKey ch nm (hch ch hchm).1 (hch ch hchm).2
              (tsFeatureNames_nameTail nm hnm)
        · simp only [compute_global_features, keysOf, List.map_cons, List.map_nil,
            List.mem_cons, List.not_mem_nil, or_false] at h
          rcases h with h | h
          · rw [h]; decide
          · rw [h]; decide
  · intro data he hm k hk
    unfold EndpointJSONExtractor.extract at hk
    rcases hev : epValidate data with ⟨bb, err⟩
    rw [hev] at hk
    cases bb with
    | false => simp [ExtractionResult.failure, keysOf] at hk
    | true =>
      cases data with
      | null => simp [ExtractionResult.failure, keysOf] at hk
      | bool b => simp [ExtractionResult.failure, keysOf] at hk
      | num x => simp [ExtractionResult.failure, keysOf] at hk
      | str s => simp [ExtractionResult.failure, keysOf] at hk
      | arr l => simp [ExtractionResult.failure, keysOf] at hk
      | obj fields =>
        simp only [] at hk
        cases hchs : dictGet? fields "channels" with
        | none =>
          rw [hchs] at hk
          simp [ExtractionResult.failure, keysOf] at hk
        | some chv =>
          rw [hchs] at hk
          cases chv with
          | null => simp [ExtractionResult.failure, keysOf] at hk
          | bool b => simp [ExtractionResult.failure, keysOf] at hk
          | num x => simp [ExtractionResult.failure, keysOf] at hk
          | str s => simp [ExtractionResult.failure, keysOf] at hk
          | obj f2 => simp [ExtractionResult.failure, keysOf] at hk
          | arr items =>
            simp only [] at hk
            have hitems : epItems (JValue.obj fields) = items := by
              simp [epItems, hchs]
            have hbase : ∀ x : String,
                x ∈ keysOf (dictUpdate
                  ((items.insertionSort (fun a b => epLabel a ≤ epLabel b)).foldl
                    epFoldStep ([], [])).1
                  (compute_global_features
                    ((items.insertionSort (fun a b => epLabel a ≤ epLabel b)).foldl
                      epFoldStep ([], [])).1
                    ((items.insertionSort (fun a b => epLabel a ≤ epLabel b)).foldl
                      epFoldStep ([], [])).2 10 3)) →
                keyShapeOK x = true := by
              intro x hx
              rcases mem_keysOf_dictUpdate _ _ _ hx with h | h
              · rcases mem_keysOf_ep_foldl _ _ _ h with h2 | h2
                · simp [keysOf] at h2
                · obtain ⟨e, he2, rfl⟩ := h2
                  have hei : e ∈ items :=
                    (List.perm_insertionSort _ items).mem_iff.mp he2
                  have hlab := he e (by rw [hitems]; exact hei)
                  exact keyShapeOK_chKey (epLabel e) "endpoint_value" hlab.1 hlab.2
                    (by decide)
              · simp only [compute_global_features, keysOf, List.map_cons, List.map_nil,
                  List.mem_cons, List.not_mem_nil, or_false] at h
                rcases h with h | h
                · rw [h]; decide
                · rw [h]; decide
            cases hmeta : dictGet? fields "metadata" with
            | none =>
              rw [hmeta] at hk
              simp only [ExtractionResult.from_features] at hk
              exact hbase k hk
            | some mv =>
              rw [hmeta] at hk
              cases mv with
              | null => simp only [ExtractionResult.from_features] at hk; exact hbase k hk
              | bool b => simp only [ExtractionResult.from_features] at hk; exact hbase k hk
              | num x => simp only [ExtractionResult.from_features] at hk; exact hbase k hk
              | str s => simp only [ExtractionResult.from_features] at hk; exact hbase k hk
              | arr l => simp only [ExtractionResult.from_features] at hk; exact hbase k hk
              | obj mf =>
                simp only [ExtractionResult.from_features] at hk
                rcases mem_keysOf_meta_foldl _ _ _ hk with h | h
                · exact hbase k h
                · obtain ⟨p, hp, rfl⟩ := h
                  have hmk := hm p (by simp [epMeta, hchs, hmeta]; exact hp)
                  exact keyShapeOK_meta p.1 hmk.1 hmk.2

/-- C6 amended witness: the S2-style endpoint payload with dot-free labels
and a newline-free metadata key emits only well-shaped keys. -/
theorem C6_key_shapes_amended_witness :
    ∀ k ∈ keysOf (EndpointJSONExtractor.extract (JValue.obj
      [("channels", JValue.arr
          [JValue.obj [("channel", JValue.str "CRP"), ("value", JValue.num 55)],
           JValue.obj [("channel", JValue.str "IL6"), ("value", JValue.num 123)]]),
       ("metadata", JValue.obj [("instrument_id", JValue.str "NEXT-001")])])).features,
      keyShapeOK k = true := by
  refine C6_key_shapes_amended.2 _ ?_ ?_
  · intro e hee
    simp only [epItems, dictGet?, List.find?] at hee
    simp at hee
    rcases hee with h | h <;> subst h <;> constructor <;> simp [epLabel, dictGet?, List.find?]
  · intro p hp
    simp only [epMeta, dictGet?, List.find?] at hp
    simp at hp
    subst hp
    constructor <;> decide

end Worker
